import Mathlib

/-!
# ditchfork: login rate limiter, session gate and slug allocator

A shallow embedding of `src/auth.go`, `src/slug.go` and the parts of `src/db.go`
and `src/admin.go` they rely on.

Conventions of the embedding:

* a point in time is an `Int`, a clock reading in nanoseconds; every function
  of the source that reads the clock (`time.Now`, `time.Since`) takes that
  reading as an explicit argument `now`;
* `time.Duration` is Go's `int64` count of nanoseconds: differences of clock
  readings saturate at the ends of the `int64` range as `time.Since` does, and
  `int64` arithmetic wraps around (`wrap64`);
* Go's `int` is taken 64 bits wide;
* a Go `map[string]*T` is a function `String → Option T`.
-/

namespace Ditchfork

/-! ## Machine integers and durations -/

/-- Two's-complement wrap-around of an integer into the `int64` range. -/
def wrap64 (x : Int) : Int := (x + 2 ^ 63) % 2 ^ 64 - 2 ^ 63

/-- Largest `int64`, which is also `time.maxDuration`. -/
def maxInt64 : Int := 2 ^ 63 - 1

/-- Smallest `int64`, which is also `time.minDuration`. -/
def minInt64 : Int := -(2 ^ 63)

/-- The duration `time.Second`, in nanoseconds. -/
def second : Int := 1000000000

/-- The duration `time.Minute`. -/
def minute : Int := 60 * second

/-- The duration `time.Hour`. -/
def hour : Int := 60 * minute

/-- Go's `time.Since(t)` read at clock value `now`: the difference `now - t`,
saturated to the `int64` range of `time.Duration`. -/
def since (now t : Int) : Int :=
  if now - t > maxInt64 then maxInt64
  else if now - t < minInt64 then minInt64
  else now - t

/-! ## Rate limiter (`src/auth.go`, lines 19-85) -/

/-- Go's `loginAttempt`. -/
structure loginAttempt where
  failures : Int
  lastFail : Int
  deriving DecidableEq

/-- Go's `loginLimiter`; the mutex is not modelled, every operation below is
one critical section. -/
structure loginLimiter where
  attempts : String → Option loginAttempt

/-- The limiter built by `newLoginLimiter`: an empty map. -/
def newLoginLimiter : loginLimiter := ⟨fun _ => none⟩

/-- One pass of the clean-up goroutine started by `newLoginLimiter`: every
entry with `time.Since(a.lastFail) > 30*time.Minute` is deleted from the map.
The pass runs under the lock and is taken to happen at one clock reading
`now`. -/
def sweep (ll : loginLimiter) (now : Int) : loginLimiter :=
  ⟨fun ip =>
    match ll.attempts ip with
    | none => none
    | some a => if since now a.lastFail > 30 * minute then none else some a⟩

/-- Go's `loginLimiter.cooldown`, with the clock reading `now` explicit. The
result carries the limiter after the call next to the returned duration. -/
def cooldown (ll : loginLimiter) (ip : String) (now : Int) : loginLimiter × Int :=
  match ll.attempts ip with
  | none => (ll, 0)
  | some a =>
    if a.failures < 3 then (ll, 0)
    else
      let shift := if a.failures - 3 > 9 then 9 else a.failures - 3
      let wait := second * 2 ^ shift.toNat
      let elapsed := since now a.lastFail
      if elapsed ≥ wait then (ll, 0) else (ll, wrap64 (wait - elapsed))

/-- Go's `loginLimiter.recordFailure`, with the clock reading `now` explicit. An
absent record starts from the zero value of `loginAttempt`; `failures++` is an
increment of Go's `int`. -/
def recordFailure (ll : loginLimiter) (ip : String) (now : Int) : loginLimiter :=
  let a : loginAttempt :=
    match ll.attempts ip with
    | none => ⟨0, 0⟩
    | some a => a
  ⟨fun k => if k = ip then some ⟨wrap64 (a.failures + 1), now⟩ else ll.attempts k⟩

/-- Go's `loginLimiter.reset`. -/
def reset (ll : loginLimiter) (ip : String) : loginLimiter :=
  ⟨fun k => if k = ip then none else ll.attempts k⟩

/-- The failure count the limiter holds for an address, an absent record
counting as 0. -/
def failureCount (ll : loginLimiter) (ip : String) : Int :=
  match ll.attempts ip with
  | none => 0
  | some a => a.failures

/-- The reference definition of `cooldown` in the words of the specification:
zero without a record or below three failures, otherwise
`max(0, wait - (now - lastFail))` with `wait = 1s × 2^min(failures - 3, 9)`,
in unbounded integer arithmetic. -/
def cooldownSpec (ll : loginLimiter) (ip : String) (now : Int) : Int :=
  match ll.attempts ip with
  | none => 0
  | some a =>
    if a.failures < 3 then 0
    else max 0 (second * 2 ^ (min (a.failures - 3) 9).toNat - (now - a.lastFail))

/-- A run of `recordFailure` calls for one address, one per clock reading of
the list, in order. -/
def recordFailures (ll : loginLimiter) (ip : String) (ts : List Int) : loginLimiter :=
  ts.foldl (fun l t => recordFailure l ip t) ll

/-- One foreground call on the limiter that is not a `reset`: a `cooldown` or a
`recordFailure` for an address at a clock reading. -/
inductive LimiterCall where
  | cooldown (ip : String) (now : Int)
  | recordFailure (ip : String) (now : Int)

/-- The limiter after one call. -/
def LimiterCall.apply (ll : loginLimiter) : LimiterCall → loginLimiter
  | .cooldown ip now => (Ditchfork.cooldown ll ip now).1
  | .recordFailure ip now => Ditchfork.recordFailure ll ip now

/-- The limiter after a sequence of calls, in order. -/
def runCalls (ll : loginLimiter) (calls : List LimiterCall) : loginLimiter :=
  calls.foldl LimiterCall.apply ll

/-! ## Slug generation (`src/slug.go`, lines 10-24)

A Go string is modelled by the sequence of its runes. `strings.ToLower` maps
`unicode.ToLower` over the runes; the Unicode case table is not part of the
repository and is a parameter `toLower` of the functions below. -/

/-- Membership in the character class `[a-z0-9-]` of the regular expression
`slugNonAlnum`. -/
def isSlugRune (c : Char) : Bool :=
  ('a' ≤ c && c ≤ 'z') || ('0' ≤ c && c ≤ '9') || c == '-'

/-- The call `slugNonAlnum.ReplaceAllString(s, "-")` for the pattern
`[^a-z0-9-]+`: a rune outside the class is dropped when the next rune is outside
the class too, and becomes `-` when it is the last one of its run, so every
maximal run of such runes is replaced by one `-`. -/
def replaceNonAlnum : List Char → List Char
  | [] => []
  | [c] => if isSlugRune c then [c] else ['-']
  | c :: d :: cs =>
    if isSlugRune c then c :: replaceNonAlnum (d :: cs)
    else if isSlugRune d then '-' :: replaceNonAlnum (d :: cs)
    else replaceNonAlnum (d :: cs)

/-- The call `slugMultiDash.ReplaceAllString(s, "-")` for the pattern `-{2,}`: a
hyphen directly followed by a hyphen is dropped, so every maximal run of two or
more hyphens is replaced by one `-`. -/
def collapseDashes : List Char → List Char
  | [] => []
  | [c] => [c]
  | c :: d :: cs =>
    if c = '-' ∧ d = '-' then collapseDashes (d :: cs) else c :: collapseDashes (d :: cs)

/-- The call `strings.Trim(s, "-")`: all leading and all trailing hyphens are
removed. -/
def trimDashes (s : List Char) : List Char :=
  ((s.dropWhile (· == '-')).reverse.dropWhile (· == '-')).reverse

/-- Go's `generateSlug`. -/
def generateSlug (toLower : Char → Char) (artist title : String) : String :=
  let s := (artist.data ++ '-' :: title.data).map toLower
  let s := replaceNonAlnum s
  let s := collapseDashes s
  let s := trimDashes s
  if s = [] then "untitled" else ⟨s⟩

/-- Every maximal run of characters satisfying `p` is replaced by a single
hyphen; `inRun` tells that the character before the list belongs to such a
run, whose hyphen has been written already. -/
def replaceRuns (p : Char → Bool) : Bool → List Char → List Char
  | _, [] => []
  | inRun, c :: cs =>
    if p c then
      if inRun then replaceRuns p true cs else '-' :: replaceRuns p true cs
    else c :: replaceRuns p false cs

/-- The slug function in the words of the specification: lowercase the
concatenation of artist and title joined by a separator (the hyphen); replace
every maximal run of characters outside `[a-z0-9-]` with a single hyphen;
collapse multiple consecutive hyphens into one; trim leading and trailing
hyphens; if the result is empty, substitute `"untitled"`. -/
def slugify (toLower : Char → Char) (artist title : String) : String :=
  let lowered := (artist ++ "-" ++ title).data.map toLower
  let replaced := replaceRuns (fun c => !isSlugRune c) false lowered
  let collapsed := replaceRuns (fun c => c == '-') false replaced
  let trimmed := (collapsed.dropWhile (· == '-')).rdropWhile (· == '-')
  if trimmed.isEmpty then "untitled" else String.mk trimmed

/-! ## Store (`src/models.go`, `src/db.go`)

The SQLite database is modelled by the rows of its tables. Statements that
reach the database are taken to succeed; the errors that remain are the ones
the Go functions raise themselves (an invalid table name, no row found, a
primary-key conflict). -/

/-- A Go `error` value; `none` is `nil`. -/
abbrev GoError := Option String

/-- A row of a content table (`albums`, `songs`, `articles`), reduced to the
columns the slug allocator reads and writes. -/
structure Row where
  id : Int
  slug : String
  deriving DecidableEq

/-- Go's `User`. -/
structure User where
  ID : Int
  Username : String
  PasswordHash : String
  deriving DecidableEq

/-- Go's `Session`; `ExpiresAt` is a clock reading. -/
structure Session where
  Token : String
  UserID : Int
  ExpiresAt : Int
  deriving DecidableEq

/-- The database behind `*sql.DB`: the content tables by name, the `users`
table and the `sessions` table. -/
structure Database where
  content : String → List Row
  users : List User
  sessions : List Session

/-- Go's `validTable`: membership among the keys of `contentTypeMap`. -/
def validTable (table : String) : Bool :=
  table == "albums" || table == "songs" || table == "articles"

/-- Go's `dbSlugExists`: `SELECT COUNT(*) FROM table WHERE slug = ?`. -/
def dbSlugExists (db : Database) (table slug : String) : Bool × GoError :=
  if !validTable table then (false, some ("invalid table: " ++ table))
  else
    let count := (db.content table).countP (fun r => r.slug = slug)
    (decide (count > 0), none)

/-- Go's `dbSlugExistsExcluding`:
`SELECT COUNT(*) FROM table WHERE slug = ? AND id != ?`. -/
def dbSlugExistsExcluding (db : Database) (table slug : String) (excludeID : Int) :
    Bool × GoError :=
  if !validTable table then (false, some ("invalid table: " ++ table))
  else
    let count := (db.content table).countP (fun r => r.slug = slug ∧ r.id ≠ excludeID)
    (decide (count > 0), none)

/-! ## Slug allocation (`src/slug.go`, lines 26-45) -/

/-- The loop of `uniqueSlug`, for a given existence probe: `i` and `slug` are
the loop variables, `fuel` bounds the number of probes, and `none` tells that
the loop has not returned within that many probes. A returned pair is Go's
`(string, error)`. -/
def uniqueSlugLoop (probe : String → Bool × GoError) (base : String) :
    Nat → Int → String → Option (String × GoError)
  | 0, _, _ => none
  | fuel + 1, i, slug =>
    match probe slug with
    | (_, some err) => some ("", some err)
    | (false, none) => some (slug, none)
    | (true, none) => uniqueSlugLoop probe base fuel (wrap64 (i + 1)) (base ++ "-" ++ i.repr)

/-- Go's `uniqueSlug`, run for at most `fuel` probes. -/
def uniqueSlug (fuel : Nat) (toLower : Char → Char) (db : Database)
    (table artist title : String) (excludeID : Int) : Option (String × GoError) :=
  let base := generateSlug toLower artist title
  uniqueSlugLoop
    (fun slug =>
      if excludeID > 0 then dbSlugExistsExcluding db table slug excludeID
      else dbSlugExists db table slug)
    base fuel 2 base

/-- The sequence of candidates `base`, `base-2`, `base-3`, …, counted from 0. -/
def slugCandidate (base : String) : Nat → String
  | 0 => base
  | j + 1 => base ++ "-" ++ (Int.ofNat (j + 2)).repr

/-- A slug is held by another record: some row of the table carries it, other
than the row with id `excludeID`; no row is set apart when `excludeID ≤ 0`. -/
def heldByOther (db : Database) (table : String) (excludeID : Int) (slug : String) : Prop :=
  ∃ r ∈ db.content table, r.slug = slug ∧ ¬(0 < excludeID ∧ r.id = excludeID)

/-- The number a list of decimal digits stands for. -/
def decimalValue (ds : List Char) : Nat :=
  ds.foldl (fun a c => 10 * a + (c.toNat - 48)) 0

/-! ## Content writes (`src/db.go`, lines 147-194; `src/admin.go`)

The schema of a content table declares `id INTEGER PRIMARY KEY AUTOINCREMENT`,
`slug TEXT NOT NULL UNIQUE` and `rating REAL NOT NULL`; an `INSERT` or `UPDATE`
that would break one of these constraints fails and leaves the table as it was.
The other columns are `TEXT NOT NULL` and are bound to Go strings, which are
never `NULL`. -/

/-- The `float64` that `strconv.ParseFloat` returns for the form value `rating`,
as far as the code and the schema tell such values apart:

* `within`: a number with `0 ≤ rating ≤ 10.0`; 0 is also what `ParseFloat`
  returns for a text that is no number;
* `outside`: a number below 0 or above 10.0, the infinities included;
* `nan`: the value NaN, which `ParseFloat` returns for the text `NaN`.

The bound 10.0 is the `MaxRating` of `albums` and of `songs`; for `articles` the
handlers set the rating to 0 and skip the check. -/
inductive Rating where
  | within
  | outside
  | nan
  deriving DecidableEq

/-- Go's `rating < 0 || rating > ct.MaxRating`: every comparison with NaN is
false. -/
def Rating.outOfBounds : Rating → Bool
  | .within => false
  | .outside => true
  | .nan => false

/-- The value is `NULL` once bound to an SQL parameter: SQLite stores NaN as
`NULL`. -/
def Rating.isNull : Rating → Bool
  | .nan => true
  | _ => false

/-- The database with the rows of one content table replaced. -/
def Database.setTable (db : Database) (table : String) (rows : List Row) : Database :=
  { db with content := fun t => if t = table then rows else db.content t }

/-- Go's `dbGetByID`; `none` stands for the error return (no such row, or an
invalid table). -/
def dbGetByID (db : Database) (table : String) (id : Int) : Option Row :=
  if !validTable table then none
  else (db.content table).find? (fun r => r.id = id)

/-- Go's `dbCreateReview` of a review with slug `slug` and rating `rating`,
where `newID` is the row id that SQLite assigns to the new row. -/
def dbCreateReview (db : Database) (table : String) (newID : Int) (slug : String)
    (rating : Rating) : Database × GoError :=
  if !validTable table then (db, some ("invalid table: " ++ table))
  else if rating.isNull then (db, some "NOT NULL constraint failed: rating")
  else if (db.content table).any (fun r => r.id = newID) then
    (db, some "UNIQUE constraint failed: id")
  else if (db.content table).any (fun r => r.slug = slug) then
    (db, some "UNIQUE constraint failed: slug")
  else (db.setTable table (db.content table ++ [⟨newID, slug⟩]), none)

/-- Go's `dbUpdateReview` for the row `id`, setting its slug to `slug` and its
rating to `rating`. An `UPDATE` that matches no row checks no constraint. -/
def dbUpdateReview (db : Database) (table : String) (id : Int) (slug : String)
    (rating : Rating) : Database × GoError :=
  if !validTable table then (db, some ("invalid table: " ++ table))
  else if (db.content table).any (fun r => r.id = id) ∧ rating.isNull then
    (db, some "NOT NULL constraint failed: rating")
  else if (db.content table).any (fun r => r.id = id) ∧
      (db.content table).any (fun r => r.id ≠ id ∧ r.slug = slug) then
    (db, some "UNIQUE constraint failed: slug")
  else
    (db.setTable table
      ((db.content table).map (fun r => if r.id = id then { r with slug := slug } else r)),
      none)

/-- Go's `dbDeleteReview`. -/
def dbDeleteReview (db : Database) (table : String) (id : Int) : Database × GoError :=
  if !validTable table then (db, some ("invalid table: " ++ table))
  else (db.setTable table ((db.content table).filter (fun r => r.id ≠ id)), none)

/-- Go's `http.SameSite`. -/
inductive SameSite where
  | defaultMode
  | laxMode
  | strictMode
  | noneMode
  deriving DecidableEq

/-- The fields of Go's `http.Cookie` that the handlers set; a field that a
handler leaves out has Go's zero value. -/
structure Cookie where
  Name : String
  Value : String
  Path : String
  HttpOnly : Bool
  Secure : Bool
  SameSite : SameSite
  MaxAge : Int
  deriving DecidableEq

/-- What a handler writes to its `http.ResponseWriter`. -/
inductive Response where
  | render (template : String) (errorMessage : Option String)
  | redirect (location : String) (status : Nat) (setCookie : Option Cookie)
  | httpError (message : String) (status : Nat)
  | notFound
  deriving DecidableEq

/-- What `handleCreate` and `handleUpdate` read from the submitted form:
whether `ParseMultipartForm` succeeds, the form values `artist` and `title`
after `strings.TrimSpace`, the `float64` parsed from the form value `rating`,
and the error `handleUpload`, which touches the file system, returns. -/
structure ReviewForm where
  parseOK : Bool
  artist : String
  title : String
  rating : Rating
  uploadError : GoError

/-- Go's `adminHandler.handleCreate`, from the form that was submitted: `table`
is the form value `type`, `form.artist` and `form.title` are the form values
after `strings.TrimSpace`, `newID` is the row id SQLite assigns on insert. For
an article the artist is set to the empty string and the rating to 0.
`uniqueSlug` is run with fuel for one probe more than the table has rows; the
branch for a loop that has not returned by then answers like a failed lookup. -/
def handleCreate (toLower : Char → Char) (db : Database) (table : String) (form : ReviewForm)
    (newID : Int) : Database × Response :=
  if !form.parseOK then (db, .httpError "Request too large" 400)
  else if !validTable table then (db, .httpError "Invalid review type" 400)
  else
    let isArticle := table == "articles"
    let artist := if isArticle then "" else form.artist
    let rating := if isArticle then Rating.within else form.rating
    if !isArticle && artist == "" then
      (db, .render "admin/form.html" (some "Artist and title are required"))
    else if form.title == "" then (db, .render "admin/form.html" (some "Title is required"))
    else if !isArticle && rating.outOfBounds then
      (db, .render "admin/form.html" (some "Rating must be between 0 and 10.0"))
    else
      match uniqueSlug ((db.content table).length + 1) toLower db table artist form.title 0 with
      | none => (db, .httpError "Internal server error" 500)
      | some (_, some _) => (db, .httpError "Internal server error" 500)
      | some (slug, none) =>
        match form.uploadError with
        | some msg => (db, .render "admin/form.html" (some msg))
        | none =>
          match dbCreateReview db table newID slug rating with
          | (db', some _) => (db', .httpError "Internal server error" 500)
          | (db', none) => (db', .redirect "/admin/" 303 none)

/-- Go's `adminHandler.handleUpdate`: `table` and `id` are the path values
`type` and `id`, the latter `none` when it does not parse as an integer. -/
def handleUpdate (toLower : Char → Char) (db : Database) (table : String) (id : Option Int)
    (form : ReviewForm) : Database × Response :=
  if !validTable table then (db, .notFound)
  else
    match id with
    | none => (db, .notFound)
    | some id =>
      match dbGetByID db table id with
      | none => (db, .notFound)
      | some _ =>
        if !form.parseOK then (db, .httpError "Request too large" 400)
        else
          let isArticle := table == "articles"
          let artist := if isArticle then "" else form.artist
          let rating := if isArticle then Rating.within else form.rating
          if !isArticle && artist == "" then
            (db, .render "admin/form.html" (some "Artist and title are required"))
          else if form.title == "" then
            (db, .render "admin/form.html" (some "Title is required"))
          else if !isArticle && rating.outOfBounds then
            (db, .render "admin/form.html" (some "Rating must be between 0 and 10.0"))
          else
            match uniqueSlug ((db.content table).length + 1) toLower db table artist
                form.title id with
            | none => (db, .httpError "Internal server error" 500)
            | some (_, some _) => (db, .httpError "Internal server error" 500)
            | some (slug, none) =>
              match form.uploadError with
              | some msg => (db, .render "admin/form.html" (some msg))
              | none =>
                match dbUpdateReview db table id slug rating with
                | (db', some _) => (db', .httpError "Internal server error" 500)
                | (db', none) => (db', .redirect "/admin/" 303 none)

/-- Go's `adminHandler.handleDelete`. -/
def handleDelete (db : Database) (table : String) (id : Option Int) : Database × Response :=
  if !validTable table then (db, .notFound)
  else
    match id with
    | none => (db, .notFound)
    | some id =>
      match dbDeleteReview db table id with
      | (db', some _) => (db', .httpError "Internal server error" 500)
      | (db', none) => (db', .redirect "/admin/" 303 none)

/-- One content write request reaching the admin handlers. -/
inductive ContentWrite where
  | create (table : String) (form : ReviewForm) (newID : Int)
  | update (table : String) (id : Option Int) (form : ReviewForm)
  | delete (table : String) (id : Option Int)

/-- The database after one content write request. -/
def ContentWrite.apply (toLower : Char → Char) (db : Database) : ContentWrite → Database
  | .create table form newID => (handleCreate toLower db table form newID).1
  | .update table id form => (handleUpdate toLower db table id form).1
  | .delete table id => (handleDelete db table id).1

/-- The database after a sequence of content write requests, one after the
other. -/
def runWrites (toLower : Char → Char) (db : Database) (ws : List ContentWrite) : Database :=
  ws.foldl (ContentWrite.apply toLower) db

/-- Within every content table the slugs are pairwise distinct. -/
def SlugsUnique (db : Database) : Prop :=
  ∀ table, ((db.content table).map (fun r => r.slug)).Nodup

/-- Within every content table the row ids are pairwise distinct. -/
def IdsUnique (db : Database) : Prop :=
  ∀ table, ((db.content table).map (fun r => r.id)).Nodup

/-- A form that passes every check of `handleCreate` and `handleUpdate` for the
given table. -/
def ReviewForm.accepted (form : ReviewForm) (table : String) : Prop :=
  form.parseOK = true ∧ form.title ≠ "" ∧ form.uploadError = none ∧
    (table ≠ "articles" → form.artist ≠ "" ∧ form.rating.outOfBounds = false)

/-- The artist the handlers pass on: empty for an article. -/
def ReviewForm.artistFor (form : ReviewForm) (table : String) : String :=
  if table == "articles" then "" else form.artist

/-- The rating the handlers pass on: 0 for an article. -/
def ReviewForm.ratingFor (form : ReviewForm) (table : String) : Rating :=
  if table == "articles" then Rating.within else form.rating

/-! ## Users and sessions (`src/db.go`, lines 215-258) -/

/-- Go's `dbGetUserByUsername`; `none` stands for the error return (no row). -/
def dbGetUserByUsername (db : Database) (username : String) : Option User :=
  db.users.find? (fun u => u.Username = username)

/-- Go's `dbCreateSession`; `token` is the primary key of the table. -/
def dbCreateSession (db : Database) (s : Session) : Database × GoError :=
  if db.sessions.any (fun x => x.Token = s.Token) then
    (db, some "UNIQUE constraint failed: sessions.token")
  else ({ db with sessions := db.sessions ++ [s] }, none)

/-- Go's `dbGetSession`; `none` stands for the error return (no row). -/
def dbGetSession (db : Database) (token : String) : Option Session :=
  db.sessions.find? (fun s => s.Token = token)

/-- Go's `dbDeleteSession`: `DELETE FROM sessions WHERE token = ?`. -/
def dbDeleteSession (db : Database) (token : String) : Database :=
  { db with sessions := db.sessions.filter (fun s => s.Token ≠ token) }

/-! ## Authentication handlers (`src/auth.go`, lines 87-211) -/

/-- Go's `sessionCookieName`. -/
def sessionCookieName : String := "ditchfork_session"

/-- Go's `authHandler`: the database and the limiter it works on. -/
structure authHandler where
  db : Database
  limiter : loginLimiter

/-- What the handlers read from an `*http.Request`: the connection address,
the `X-Forwarded-For` header (empty when absent), the value of the session
cookie when the request carries one, and the two form values of the login
form. -/
structure Request where
  RemoteAddr : String
  forwardedFor : String
  sessionCookie : Option String
  username : String
  password : String

/-- A handler acts on the state behind the `authHandler` at a clock reading and
answers with a response. -/
abbrev Handler := authHandler → Request → Int → authHandler × Response

/-- Go's `clientIP`. -/
def clientIP (r : Request) : String :=
  if r.forwardedFor ≠ "" then String.mk (r.forwardedFor.data.takeWhile (· ≠ ','))
  else
    let addr := r.RemoteAddr
    if ':' ∈ addr.data then
      String.mk ((addr.data.reverse.dropWhile (· ≠ ':')).drop 1).reverse
    else addr

/-- Go's `hex.EncodeToString` on a 32-byte slice. -/
def hexEncode (bytes : Fin 32 → Fin 256) : String :=
  String.mk ((List.ofFn bytes).flatMap
    (fun b => [Nat.digitChar (b.val / 16), Nat.digitChar (b.val % 16)]))

/-- The redirect to the login page that `requireAuth` and `handleLogout` send. -/
def redirectToLogin (setCookie : Option Cookie) : Response :=
  .redirect "/admin/login" 303 setCookie

/-- Go's `authHandler.handleLogin` at clock reading `now`.
`compareHashAndPassword hash password` tells whether
`bcrypt.CompareHashAndPassword` returns `nil`; `random` is what `rand.Read`
delivers for the 32-byte token, `none` when it fails. The whole seconds shown
to a throttled client are `int(wait.Seconds()) + 1`. -/
def handleLogin (compareHashAndPassword : String → String → Bool)
    (random : Option (Fin 32 → Fin 256)) : Handler := fun h r now =>
  let ip := clientIP r
  let (limiter, wait) := cooldown h.limiter ip now
  if wait > 0 then
    let secs := wait / second + 1
    ({ h with limiter := limiter },
      .render "admin/login.html"
        (some ("Too many attempts. Try again in " ++ secs.repr ++ "s.")))
  else
    match dbGetUserByUsername h.db r.username with
    | none =>
      ({ h with limiter := recordFailure limiter ip now },
        .render "admin/login.html" (some "Invalid credentials"))
    | some user =>
      if !compareHashAndPassword user.PasswordHash r.password then
        ({ h with limiter := recordFailure limiter ip now },
          .render "admin/login.html" (some "Invalid credentials"))
      else
        let limiter := reset limiter ip
        match random with
        | none => ({ h with limiter := limiter }, .httpError "Internal server error" 500)
        | some tokenBytes =>
          let token := hexEncode tokenBytes
          let session : Session :=
            { Token := token, UserID := user.ID, ExpiresAt := now + 24 * hour }
          match dbCreateSession h.db session with
          | (_, some _) =>
            ({ h with limiter := limiter }, .httpError "Internal server error" 500)
          | (db, none) =>
            ({ db := db, limiter := limiter },
              .redirect "/admin/" 303
                (some { Name := sessionCookieName, Value := token, Path := "/admin",
                        HttpOnly := true, Secure := false, SameSite := .strictMode,
                        MaxAge := 86400 }))

/-- Go's `authHandler.handleLogout`. -/
def handleLogout : Handler := fun h r _ =>
  let db :=
    match r.sessionCookie with
    | some value => dbDeleteSession h.db value
    | none => h.db
  ({ h with db := db },
    redirectToLogin
      (some { Name := sessionCookieName, Value := "", Path := "/admin", HttpOnly := true,
              Secure := false, SameSite := .strictMode, MaxAge := -1 }))

/-- Go's `authHandler.requireAuth`; `time.Now().After(session.ExpiresAt)` is
`now > session.ExpiresAt`. -/
def requireAuth (next : Handler) : Handler := fun h r now =>
  match r.sessionCookie with
  | none => (h, redirectToLogin none)
  | some value =>
    match dbGetSession h.db value with
    | none => (h, redirectToLogin none)
    | some session =>
      if now > session.ExpiresAt then
        ({ h with db := dbDeleteSession h.db value }, redirectToLogin none)
      else next h r now

/-- The request carries valid credentials: the user exists and the stored hash
matches the password. -/
def validCredentials (compareHashAndPassword : String → String → Bool) (db : Database)
    (r : Request) : Prop :=
  ∃ u, dbGetUserByUsername db r.username = some u ∧
    compareHashAndPassword u.PasswordHash r.password = true

/-! ## Routing (`src/main.go`, lines 109-128; `src/setup.go`, lines 69-83) -/

/-- Go's `setupGuard`, for a path outside `/static/` and `/setup`: as long as
the `users` table is empty (`dbHasUsers`) the request is redirected to
`/setup`. -/
def setupGuard (next : Handler) : Handler := fun h r now =>
  if h.db.users.length > 0 then next h r now else (h, .redirect "/setup" 303 none)

/-- The handler that serves `POST /admin/logout`: the route is registered as
`auth.requireAuth(auth.handleLogout)` on the mux, and the mux is served behind
`setupGuard`. -/
def logoutRoute : Handler := setupGuard (requireAuth handleLogout)

/-- The cookie `handleLogout` sets to clear the session cookie: empty value and
negative max-age. -/
def clearedSessionCookie : Cookie :=
  { Name := sessionCookieName, Value := "", Path := "/admin", HttpOnly := true,
    Secure := false, SameSite := .strictMode, MaxAge := -1 }

/-- The cookie a response sets, if any. -/
def Response.setCookie : Response → Option Cookie
  | .redirect _ _ c => c
  | _ => none

/-- The HTTP status of a response. -/
def Response.status : Response → Nat
  | .render _ _ => 200
  | .redirect _ status _ => status
  | .httpError _ status => status
  | .notFound => 404

/-! ## Quantities the statements about slugs speak of -/

/-- The runes `a`-`z` and `0`-`9`. -/
def isAlnumRune (c : Char) : Bool :=
  ('a' ≤ c && c ≤ 'z') || ('0' ≤ c && c ≤ '9')

/-- The string `generateSlug` has computed before it tests it for emptiness. -/
def slugBody (toLower : Char → Char) (artist title : String) : List Char :=
  trimDashes (collapseDashes (replaceNonAlnum
    ((artist.data ++ '-' :: title.data).map toLower)))

/-- The slug is `base` or of the form `base-n` for a decimal `n ≥ 2` without
leading zeros, that is, one of the candidates `uniqueSlug` may probe. -/
def isCandidateSlug (base slug : String) : Bool :=
  slug == base ||
    (decide (2 ≤ decimalValue (slug.data.drop (base.length + 1))) &&
      slug == base ++ "-" ++ Nat.repr (decimalValue (slug.data.drop (base.length + 1))))

/-- The number of rows of the table, the row `excludeID` apart (no row when
`excludeID ≤ 0`), whose slug is `base` or of the form `base-n`. -/
def collidingCount (db : Database) (table : String) (excludeID : Int) (base : String) : Nat :=
  (db.content table).countP
    (fun r => isCandidateSlug base r.slug && !(decide (0 < excludeID) && decide (r.id = excludeID)))

/-- The number of existence probes the loop of `uniqueSlug` makes; it follows
`uniqueSlugLoop` step by step. -/
def uniqueSlugProbes (probe : String → Bool × GoError) (base : String) :
    Nat → Int → String → Nat
  | 0, _, _ => 0
  | fuel + 1, i, slug =>
    match probe slug with
    | (true, none) =>
      1 + uniqueSlugProbes probe base fuel (wrap64 (i + 1)) (base ++ "-" ++ i.repr)
    | _ => 1

/-- The number of existence probes `uniqueSlug` makes when run for at most
`fuel` probes. -/
def uniqueSlugProbeCount (fuel : Nat) (toLower : Char → Char) (db : Database)
    (table artist title : String) (excludeID : Int) : Nat :=
  let base := generateSlug toLower artist title
  uniqueSlugProbes
    (fun slug =>
      if excludeID > 0 then dbSlugExistsExcluding db table slug excludeID
      else dbSlugExists db table slug)
    base fuel 2 base

/-! ## Sample data -/

/-- A handler behind the gate that changes nothing and renders the dashboard. -/
def sampleNext : Handler := fun h _ _ => (h, .render "admin/dashboard.html" none)

/-- An `authHandler` whose database holds user `admin` and one session with
token `tok`, expiring at clock reading 100; the limiter is empty. -/
def sampleAuth : authHandler :=
  { db := { content := fun _ => []
            users := [⟨1, "admin", "hash-of-secret"⟩]
            sessions := [⟨"tok", 1, 100⟩] }
    limiter := newLoginLimiter }

/-- A request from `203.0.113.7` with the session cookie `tok` and the given
login form values. -/
def sampleRequest (username password : String) : Request :=
  { RemoteAddr := "203.0.113.7:52044", forwardedFor := "", sessionCookie := some "tok",
    username := username, password := password }

/-- A request to the logout route whose session cookie holds a token that no
session record carries. -/
def sampleStaleRequest : Request :=
  { RemoteAddr := "203.0.113.7:52044", forwardedFor := "", sessionCookie := some "gone",
    username := "", password := "" }

/-- A stand-in for `bcrypt.CompareHashAndPassword`: the hash of `p` is
`"hash-of-" ++ p`. -/
def sampleCompare (hash password : String) : Bool := hash == "hash-of-" ++ password


/-- A database whose `albums` table holds the slugs `x-y` and `x-y-2`. -/
def sampleDatabase : Database :=
  { content := fun t => if t = "albums" then [⟨1, "x-y"⟩, ⟨2, "x-y-2"⟩] else []
    users := []
    sessions := [] }

/-- A form for the review of artist `x`, title `y`, that passes every check. -/
def sampleForm : ReviewForm :=
  { parseOK := true, artist := "x", title := "y", rating := .within, uploadError := none }

/-- The form `sampleForm` with the rating NaN, which passes every check as
well. -/
def sampleNaNForm : ReviewForm :=
  { parseOK := true, artist := "x", title := "y", rating := .nan, uploadError := none }

/-- A database without rows. -/
def sampleEmptyDatabase : Database :=
  { content := fun _ => []
    users := []
    sessions := [] }

/-- A limiter with one record: four failures, the last at clock reading 1000. -/
def sampleLimiter : loginLimiter :=
  ⟨fun ip => if ip = "203.0.113.7" then some ⟨4, 1000⟩ else none⟩

/-- The database of `sampleAuth` with the limiter `sampleLimiter`, which holds
four failures for `203.0.113.7`. -/
def sampleThrottled : authHandler :=
  { db := sampleAuth.db, limiter := sampleLimiter }

/-! ## Arithmetic facts used below -/

theorem wrap64_eq_self {x : Int} (hlo : minInt64 ≤ x) (hhi : x ≤ maxInt64) : wrap64 x = x := by
  unfold wrap64
  unfold minInt64 at hlo
  unfold maxInt64 at hhi
  omega

theorem two_pow_le_512 {n : Nat} (h : n ≤ 9) : (1 : Int) ≤ 2 ^ n ∧ (2 : Int) ^ n ≤ 512 := by
  interval_cases n <;> norm_num

theorem shift_eq_min (f : Int) : (if f - 3 > 9 then (9 : Int) else f - 3) = min (f - 3) 9 := by
  split <;> omega

/-! ## C1 -/

/-- C1. With the clock explicit, `cooldown` returns the limiter it was given,
unchanged, together with the duration of the reference definition: 0 without a
record or below three failures, else `max(0, wait - (now - lastFail))` with
`wait = 1s × 2^min(failures - 3, 9)`. The hypothesis keeps the record's last
failure from lying more than `maxInt64 - 512 s` (about 292 years) after `now`,
so that `wait - elapsed` is computed without `int64` wrap-around; it holds in
particular whenever the last failure is not after `now`. -/
theorem cooldown_eq_cooldownSpec (ll : loginLimiter) (ip : String) (now : Int)
    (h : ∀ a, ll.attempts ip = some a → a.lastFail - now ≤ maxInt64 - 512 * second) :
    cooldown ll ip now = (ll, cooldownSpec ll ip now) := by
  unfold cooldown cooldownSpec
  cases hrec : ll.attempts ip with
  | none => rfl
  | some a =>
    have hb := h a hrec
    simp only
    by_cases hf : a.failures < 3
    · simp [hf]
    · simp only [hf, if_false]
      rw [shift_eq_min]
      have hn : (min (a.failures - 3) 9).toNat ≤ 9 := by omega
      obtain ⟨h1, h2⟩ := two_pow_le_512 hn
      generalize (2 : Int) ^ (min (a.failures - 3) 9).toNat = p at h1 h2
      unfold since
      unfold maxInt64 second at hb
      unfold maxInt64 minInt64 second
      split_ifs <;> refine Prod.ext rfl ?_ <;> dsimp only
      all_goals first
        | omega
        | (rw [wrap64_eq_self (by unfold minInt64; omega) (by unfold maxInt64; omega)]; omega)

/-- Witness of C1 at `sampleLimiter`, 500 ns after the last failure. -/
theorem cooldown_eq_cooldownSpec_witness :
    (∀ a, sampleLimiter.attempts "203.0.113.7" = some a →
        a.lastFail - 1500 ≤ maxInt64 - 512 * second) ∧
      cooldown sampleLimiter "203.0.113.7" 1500
        = (sampleLimiter, cooldownSpec sampleLimiter "203.0.113.7" 1500) ∧
      cooldownSpec sampleLimiter "203.0.113.7" 1500 = 2 * second - 500 :=
  have hyp : ∀ a, sampleLimiter.attempts "203.0.113.7" = some a →
      a.lastFail - 1500 ≤ maxInt64 - 512 * second := by
    intro a ha
    simp only [sampleLimiter, if_true, Option.some.injEq] at ha
    subst ha
    decide
  ⟨hyp, cooldown_eq_cooldownSpec sampleLimiter "203.0.113.7" 1500 hyp, by decide⟩

/-! ## Facts about `recordFailure` -/

theorem recordFailure_attempts_self (ll : loginLimiter) (ip : String) (now : Int) :
    (recordFailure ll ip now).attempts ip = some ⟨wrap64 (failureCount ll ip + 1), now⟩ := by
  unfold recordFailure failureCount
  cases ll.attempts ip <;> simp

theorem recordFailure_attempts_other (ll : loginLimiter) (ip : String) (now : Int)
    {k : String} (hk : k ≠ ip) : (recordFailure ll ip now).attempts k = ll.attempts k := by
  simp [recordFailure, hk]

theorem failureCount_recordFailure_self (ll : loginLimiter) (ip : String) (now : Int)
    (hlo : minInt64 ≤ failureCount ll ip) (hhi : failureCount ll ip < maxInt64) :
    failureCount (recordFailure ll ip now) ip = failureCount ll ip + 1 := by
  have h := recordFailure_attempts_self ll ip now
  rw [wrap64_eq_self (by omega) (by omega)] at h
  simp [failureCount, h]

theorem failureCount_recordFailure_other (ll : loginLimiter) (ip : String) (now : Int)
    {k : String} (hk : k ≠ ip) :
    failureCount (recordFailure ll ip now) k = failureCount ll k := by
  simp [failureCount, recordFailure_attempts_other ll ip now hk]

theorem recordFailures_append (ll : loginLimiter) (ip : String) (ts : List Int) (t : Int) :
    recordFailures ll ip (ts ++ [t]) = recordFailure (recordFailures ll ip ts) ip t := by
  simp [recordFailures, List.foldl_append]

theorem failureCount_recordFailures (ip : String) (ts : List Int) :
    ∀ ll : loginLimiter, minInt64 ≤ failureCount ll ip →
      failureCount ll ip + ts.length ≤ maxInt64 →
      failureCount (recordFailures ll ip ts) ip = failureCount ll ip + ts.length := by
  induction ts with
  | nil => intro ll _ _; simp [recordFailures]
  | cons t ts ih =>
    intro ll hlo hhi
    simp only [List.length_cons, Nat.cast_add, Nat.cast_one] at hhi
    have h1 := failureCount_recordFailure_self ll ip t hlo (by omega)
    have h2 := ih (recordFailure ll ip t) (by omega) (by omega)
    simp only [recordFailures, List.foldl_cons, List.length_cons, Nat.cast_add,
      Nat.cast_one] at h2 ⊢
    rw [h2, h1]
    ring

/-! ## C2 -/

/-- C2. For an address without a record, after `k = ts.length + 1 ≥ 3`
consecutive `recordFailure` calls (at the clock readings `ts`, then `t`),
`cooldown` at the instant `t` of the `k`-th failure returns
`1s × 2^min(k - 3, 9)`, and `cooldown` at any clock reading at least that much
after `t` returns 0. The last hypothesis says that `k` fits Go's `int`. -/
theorem cooldown_after_k_failures (ll : loginLimiter) (ip : String) (ts : List Int) (t : Int)
    (hnone : ll.attempts ip = none) (hk : 3 ≤ ts.length + 1)
    (hfit : ((ts.length + 1 : Nat) : Int) ≤ maxInt64) :
    (cooldown (recordFailures ll ip (ts ++ [t])) ip t).2
        = second * 2 ^ (min (ts.length + 1 - 3) 9) ∧
      ∀ t' : Int, t + second * 2 ^ (min (ts.length + 1 - 3) 9) ≤ t' →
        (cooldown (recordFailures ll ip (ts ++ [t])) ip t').2 = 0 := by
  have h0 : failureCount ll ip = 0 := by simp [failureCount, hnone]
  have hcnt : failureCount (recordFailures ll ip ts) ip = ts.length := by
    have := failureCount_recordFailures ip ts ll (by rw [h0]; decide)
      (by rw [h0]; push_cast at hfit; omega)
    rw [this, h0]; simp
  have hrec : (recordFailures ll ip (ts ++ [t])).attempts ip
      = some ⟨(ts.length : Int) + 1, t⟩ := by
    rw [recordFailures_append, recordFailure_attempts_self, hcnt,
      wrap64_eq_self (by unfold minInt64; omega) (by push_cast at hfit; omega)]
  have hshift : (if ((ts.length : Int) + 1) - 3 > 9 then (9 : Int)
      else ((ts.length : Int) + 1) - 3).toNat = min (ts.length + 1 - 3) 9 := by
    split <;> omega
  have hn : min (ts.length + 1 - 3) 9 ≤ 9 := by omega
  obtain ⟨p1, p2⟩ := two_pow_le_512 hn
  have hf : ¬ ((ts.length : Int) + 1 < 3) := by omega
  constructor
  · unfold cooldown
    simp only [hrec, hf, if_false, hshift]
    generalize (2 : Int) ^ (min (ts.length + 1 - 3) 9) = p at p1 p2
    unfold since maxInt64 minInt64 second
    split_ifs <;> dsimp only <;> first
      | omega
      | (rw [wrap64_eq_self (by unfold minInt64; omega) (by unfold maxInt64; omega)]; omega)
  · intro t' ht'
    unfold cooldown
    simp only [hrec, hf, if_false, hshift]
    generalize (2 : Int) ^ (min (ts.length + 1 - 3) 9) = p at p1 p2 ht'
    unfold since maxInt64 minInt64
    unfold second at ht' ⊢
    split_ifs <;> dsimp only <;> omega

/-- Witness of C2 for `k = 4`, failures at clock readings 10, 20, 30 and 40: the
wait is two seconds, and it is over two seconds later. -/
theorem cooldown_after_k_failures_witness :
    newLoginLimiter.attempts "203.0.113.7" = none ∧ 3 ≤ [(10 : Int), 20, 30].length + 1 ∧
      (cooldown (recordFailures newLoginLimiter "203.0.113.7" ([10, 20, 30] ++ [40]))
        "203.0.113.7" 40).2 = 2 * second ∧
      (cooldown (recordFailures newLoginLimiter "203.0.113.7" ([10, 20, 30] ++ [40]))
        "203.0.113.7" (40 + 2 * second)).2 = 0 := by
  have h := cooldown_after_k_failures newLoginLimiter "203.0.113.7" [10, 20, 30] 40
    rfl (by decide) (by decide)
  refine ⟨rfl, by decide, ?_, ?_⟩
  · rw [h.1]; decide
  · exact h.2 _ (le_of_eq (by decide))

/-! ## C3 -/

theorem reset_attempts_self (ll : loginLimiter) (ip : String) :
    (reset ll ip).attempts ip = none := by
  simp [reset]

/-- C3. Whatever the limiter holds for an address, after `reset` the address
has no record, and `cooldown` for it returns 0 at every clock reading. -/
theorem cooldown_reset (ll : loginLimiter) (ip : String) (now : Int) :
    (reset ll ip).attempts ip = none ∧ (cooldown (reset ll ip) ip now).2 = 0 := by
  have h := reset_attempts_self ll ip
  exact ⟨h, by simp [cooldown, h]⟩

/-! ## C4 -/

theorem cooldown_fst (ll : loginLimiter) (ip : String) (now : Int) :
    (cooldown ll ip now).1 = ll := by
  unfold cooldown
  cases ll.attempts ip with
  | none => rfl
  | some a =>
    dsimp only
    split_ifs <;> rfl

theorem failureCount_apply_le (ll : loginLimiter) (c : LimiterCall) (addr : String)
    (hlo : minInt64 ≤ failureCount ll addr) (hhi : failureCount ll addr < maxInt64) :
    failureCount ll addr ≤ failureCount (c.apply ll) addr ∧
      failureCount (c.apply ll) addr ≤ failureCount ll addr + 1 := by
  cases c with
  | cooldown ip now =>
    simp [LimiterCall.apply, cooldown_fst]
  | recordFailure ip now =>
    by_cases h : addr = ip
    · subst h
      simp only [LimiterCall.apply]
      rw [failureCount_recordFailure_self ll addr now hlo hhi]
      omega
    · simp only [LimiterCall.apply]
      rw [failureCount_recordFailure_other ll ip now h]
      omega

theorem failureCount_runCalls_le (addr : String) (calls : List LimiterCall) :
    ∀ ll : loginLimiter, minInt64 ≤ failureCount ll addr →
      failureCount ll addr + calls.length ≤ maxInt64 →
      failureCount ll addr ≤ failureCount (runCalls ll calls) addr ∧
        failureCount (runCalls ll calls) addr ≤ failureCount ll addr + calls.length := by
  induction calls with
  | nil => intro ll _ _; simp [runCalls]
  | cons c cs ih =>
    intro ll hlo hhi
    simp only [List.length_cons, Nat.cast_add, Nat.cast_one] at hhi
    obtain ⟨h1, h2⟩ := failureCount_apply_le ll c addr hlo (by omega)
    obtain ⟨h3, h4⟩ := ih (c.apply ll) (by omega) (by omega)
    simp only [runCalls, List.foldl_cons, List.length_cons, Nat.cast_add, Nat.cast_one]
      at h3 h4 ⊢
    constructor <;> omega

theorem runCalls_append (ll : loginLimiter) (p q : List LimiterCall) :
    runCalls ll (p ++ q) = runCalls (runCalls ll p) q := by
  simp [runCalls, List.foldl_append]

/-- C4. `recordFailure` raises the address's failure count by exactly one (an
absent record counting as 0 and being created with count 1) and sets its
last-failure time to `now`; and along any sequence of `cooldown` and
`recordFailure` calls, split anywhere into the calls made so far `p` and the
calls that follow `q`, the failure count of an address after `p ++ q` is at
least what it was after `p`. The hypotheses say that the counts involved are
values of Go's `int` that the calls do not take past its largest value. -/
theorem recordFailure_monotonic (ll : loginLimiter) (ip : String) (now : Int)
    (addr : String) (p q : List LimiterCall)
    (hlo : minInt64 ≤ failureCount ll ip) (hhi : failureCount ll ip < maxInt64)
    (hlo' : minInt64 ≤ failureCount ll addr)
    (hhi' : failureCount ll addr + (p ++ q).length ≤ maxInt64) :
    (recordFailure ll ip now).attempts ip = some ⟨failureCount ll ip + 1, now⟩ ∧
      (ll.attempts ip = none → (recordFailure ll ip now).attempts ip = some ⟨1, now⟩) ∧
      failureCount (runCalls ll p) addr ≤ failureCount (runCalls ll (p ++ q)) addr := by
  refine ⟨?_, ?_, ?_⟩
  · rw [recordFailure_attempts_self, wrap64_eq_self (by omega) (by omega)]
  · intro hnone
    rw [recordFailure_attempts_self]
    simp [failureCount, hnone]
    decide
  · simp only [List.length_append, Nat.cast_add] at hhi'
    obtain ⟨h1, h2⟩ := failureCount_runCalls_le addr p ll hlo' (by omega)
    rw [runCalls_append]
    exact (failureCount_runCalls_le addr q (runCalls ll p) (by omega) (by omega)).1

/-- Witness of C4 at `sampleLimiter` (four failures on record): a fifth failure
at clock reading 2000, and a run of three calls. -/
theorem recordFailure_monotonic_witness :
    failureCount sampleLimiter "203.0.113.7" = 4 ∧
      (recordFailure sampleLimiter "203.0.113.7" 2000).attempts "203.0.113.7"
        = some ⟨5, 2000⟩ ∧
      failureCount (runCalls sampleLimiter [.recordFailure "203.0.113.7" 2000]) "203.0.113.7"
        ≤ failureCount (runCalls sampleLimiter ([.recordFailure "203.0.113.7" 2000] ++
            [.cooldown "203.0.113.7" 2001, .recordFailure "203.0.113.7" 2002]))
            "203.0.113.7" := by
  have h := recordFailure_monotonic sampleLimiter "203.0.113.7" 2000 "203.0.113.7"
    [.recordFailure "203.0.113.7" 2000]
    [.cooldown "203.0.113.7" 2001, .recordFailure "203.0.113.7" 2002]
    (by decide) (by decide) (by decide) (by decide)
  exact ⟨by decide, h.1, h.2.2⟩

/-! ## C5 -/

theorem since_gt_iff (now t d : Int) (hd0 : minInt64 ≤ d) (hd : d < maxInt64) :
    since now t > d ↔ now - t > d := by
  unfold since
  unfold maxInt64 at hd ⊢
  unfold minInt64 at hd0 ⊢
  split_ifs <;> omega

/-- C5. One pass of the sweep at clock reading `now` removes a record exactly
when its last-failure age `now - lastFail` exceeds 30 minutes: an address has no
record afterwards iff it had none or its record was older than that, and it has
record `a` afterwards iff it had that same record `a` (same count, same
timestamp) with age at most 30 minutes; in particular no record is added. -/
theorem sweep_removes_iff_stale (ll : loginLimiter) (now : Int) (ip : String) :
    ((sweep ll now).attempts ip = none ↔
        ll.attempts ip = none ∨
          ∃ a, ll.attempts ip = some a ∧ now - a.lastFail > 30 * minute) ∧
      ∀ a, (sweep ll now).attempts ip = some a ↔
        ll.attempts ip = some a ∧ now - a.lastFail ≤ 30 * minute := by
  have key : ∀ a : loginAttempt, since now a.lastFail > 30 * minute ↔
      now - a.lastFail > 30 * minute :=
    fun a => since_gt_iff now a.lastFail (30 * minute) (by decide) (by decide)
  have hsweep : (sweep ll now).attempts ip = match ll.attempts ip with
      | none => none
      | some a => if since now a.lastFail > 30 * minute then none else some a := rfl
  rw [hsweep]
  cases hrec : ll.attempts ip with
  | none => simp
  | some b =>
    simp only [key]
    by_cases hb : now - b.lastFail > 30 * minute
    · simp only [hb, if_true, true_iff, reduceCtorEq, false_or, Option.some.injEq,
        exists_eq_left', false_iff, not_and, not_le, true_and]
      intro a hab
      rw [← hab]; exact hb
    · simp only [hb, if_false, reduceCtorEq, false_or, Option.some.injEq, exists_eq_left',
        iff_self, true_and]
      intro a
      constructor
      · intro hab; exact ⟨hab, by rw [← hab]; omega⟩
      · intro h; exact h.1

/-! ## C6 -/

theorem replaceRuns_cons_of_pos (p : Char → Bool) (b : Bool) {c : Char} (cs : List Char)
    (h : p c = true) :
    replaceRuns p b (c :: cs)
      = if b then replaceRuns p true cs else '-' :: replaceRuns p true cs := by
  cases b <;> simp [replaceRuns, h]

theorem replaceRuns_cons_of_neg (p : Char → Bool) (b : Bool) {c : Char} (cs : List Char)
    (h : p c = false) : replaceRuns p b (c :: cs) = c :: replaceRuns p false cs := by
  cases b <;> simp [replaceRuns, h]

theorem replaceNonAlnum_cons_cons (c d : Char) (cs : List Char) :
    replaceNonAlnum (c :: d :: cs)
      = if isSlugRune c then c :: replaceNonAlnum (d :: cs)
        else if isSlugRune d then '-' :: replaceNonAlnum (d :: cs)
        else replaceNonAlnum (d :: cs) := by
  rw [replaceNonAlnum]

theorem replaceNonAlnum_cons_of_slugRune {c : Char} (cs : List Char)
    (h : isSlugRune c = true) : replaceNonAlnum (c :: cs) = c :: replaceNonAlnum cs := by
  cases cs with
  | nil => simp [replaceNonAlnum, h]
  | cons d ds => rw [replaceNonAlnum_cons_cons, if_pos h]

theorem replaceNonAlnum_eq_replaceRuns (s : List Char) :
    replaceNonAlnum s = replaceRuns (fun c => !isSlugRune c) false s ∧
      ∀ c, isSlugRune c = false →
        replaceNonAlnum (c :: s) = '-' :: replaceRuns (fun c => !isSlugRune c) true s := by
  induction s with
  | nil =>
    refine ⟨rfl, ?_⟩
    intro c hc
    simp [replaceNonAlnum, replaceRuns, hc]
  | cons d ds ih =>
    obtain ⟨ih1, ih2⟩ := ih
    have h1 : replaceNonAlnum (d :: ds)
        = replaceRuns (fun c => !isSlugRune c) false (d :: ds) := by
      cases hd : isSlugRune d with
      | true =>
        rw [replaceNonAlnum_cons_of_slugRune ds hd, ih1,
          replaceRuns_cons_of_neg _ _ _ (by simp [hd])]
      | false =>
        rw [ih2 d hd, replaceRuns_cons_of_pos _ _ _ (by simp [hd])]
        simp
    refine ⟨h1, ?_⟩
    intro c hc
    rw [replaceNonAlnum_cons_cons]
    cases hd : isSlugRune d with
    | true =>
      simp only [hc, Bool.false_eq_true, if_false, if_true]
      rw [h1, replaceRuns_cons_of_neg _ _ _ (by simp [hd]),
        replaceRuns_cons_of_neg _ _ _ (by simp [hd])]
    | false =>
      simp only [hc, Bool.false_eq_true, if_false]
      rw [ih2 d hd, replaceRuns_cons_of_pos _ _ _ (by simp [hd])]
      simp

theorem collapseDashes_cons_cons (c d : Char) (cs : List Char) :
    collapseDashes (c :: d :: cs)
      = if c = '-' ∧ d = '-' then collapseDashes (d :: cs)
        else c :: collapseDashes (d :: cs) := by
  rw [collapseDashes]

theorem collapseDashes_cons_of_ne {c : Char} (cs : List Char) (h : c ≠ '-') :
    collapseDashes (c :: cs) = c :: collapseDashes cs := by
  cases cs with
  | nil => simp [collapseDashes]
  | cons d ds => rw [collapseDashes_cons_cons, if_neg (fun hh => h hh.1)]

theorem collapseDashes_eq_replaceRuns (s : List Char) :
    collapseDashes s = replaceRuns (fun c => c == '-') false s ∧
      collapseDashes ('-' :: s) = '-' :: replaceRuns (fun c => c == '-') true s := by
  induction s with
  | nil => exact ⟨rfl, by simp [collapseDashes, replaceRuns]⟩
  | cons d ds ih =>
    obtain ⟨ih1, ih2⟩ := ih
    by_cases hd : d = '-'
    · subst hd
      have h1 : collapseDashes ('-' :: ds)
          = replaceRuns (fun c => c == '-') false ('-' :: ds) := by
        rw [ih2, replaceRuns_cons_of_pos _ _ _ (by simp)]
        simp
      refine ⟨h1, ?_⟩
      rw [collapseDashes_cons_cons, if_pos ⟨rfl, rfl⟩, ih2,
        replaceRuns_cons_of_pos _ _ _ (by simp)]
      simp
    · have h1 : collapseDashes (d :: ds)
          = replaceRuns (fun c => c == '-') false (d :: ds) := by
        rw [collapseDashes_cons_of_ne ds hd, ih1,
          replaceRuns_cons_of_neg _ _ _ (by simp [hd])]
      refine ⟨h1, ?_⟩
      rw [collapseDashes_cons_cons, if_neg (fun hh => hd hh.2), h1,
        replaceRuns_cons_of_neg _ _ _ (by simp [hd]),
        replaceRuns_cons_of_neg _ _ _ (by simp [hd])]

theorem generateSlug_eq_slugify (toLower : Char → Char) (artist title : String) :
    generateSlug toLower artist title = slugify toLower artist title := by
  unfold generateSlug slugify trimDashes
  simp only [String.data_append, List.rdropWhile, (replaceNonAlnum_eq_replaceRuns _).1,
    (collapseDashes_eq_replaceRuns _).1, List.isEmpty_iff, List.append_assoc,
    List.singleton_append]

theorem generateSlug_congr (f g : Char → Char) (artist title : String)
    (h : ∀ c ∈ artist.data ++ '-' :: title.data, f c = g c) :
    generateSlug f artist title = generateSlug g artist title := by
  unfold generateSlug
  rw [List.map_congr_left h]

/-- C6. Whatever `unicode.ToLower` does outside ASCII, provided it lowers ASCII
as Go does (`A`-`Z` to `a`-`z`, every other ASCII rune unchanged):
`generateSlug` reproduces the three examples of the specification, and on every
pair of inputs it returns what the specification's `slugify` pipeline returns. -/
theorem generateSlug_examples_and_slugify (toLower : Char → Char)
    (hascii : ∀ c : Char, c.toNat < 128 → toLower c = c.toLower) :
    generateSlug toLower "Radiohead" "OK Computer" = "radiohead-ok-computer" ∧
      generateSlug toLower "" "" = "untitled" ∧
      generateSlug toLower "A&B" "C!!D" = "a-b-c-d" ∧
      ∀ artist title : String,
        generateSlug toLower artist title = slugify toLower artist title := by
  refine ⟨?_, ?_, ?_, generateSlug_eq_slugify toLower⟩
  · rw [generateSlug_congr toLower Char.toLower _ _
      (fun c hc => hascii c (by revert c; decide))]
    decide
  · rw [generateSlug_congr toLower Char.toLower _ _
      (fun c hc => hascii c (by revert c; decide))]
    decide
  · rw [generateSlug_congr toLower Char.toLower _ _
      (fun c hc => hascii c (by revert c; decide))]
    decide

/-- Witness of C6 with ASCII-only lowering in the place of `unicode.ToLower`. -/
theorem generateSlug_examples_and_slugify_witness :
    (∀ c : Char, c.toNat < 128 → Char.toLower c = c.toLower) ∧
      generateSlug Char.toLower "Radiohead" "OK Computer" = "radiohead-ok-computer" ∧
      generateSlug Char.toLower "" "" = "untitled" ∧
      generateSlug Char.toLower "A&B" "C!!D" = "a-b-c-d" :=
  have h := generateSlug_examples_and_slugify Char.toLower (fun _ _ => rfl)
  ⟨fun _ _ => rfl, h.1, h.2.1, h.2.2.1⟩

/-! ## Decimal rendering is injective -/

theorem digitChar_toNat_sub {k : Nat} (h : k < 10) : (Nat.digitChar k).toNat - 48 = k := by
  interval_cases k <;> rfl

theorem toDigitsCore_append (fuel : Nat) :
    ∀ (n : Nat) (ds : List Char),
      Nat.toDigitsCore 10 fuel n ds = Nat.toDigitsCore 10 fuel n [] ++ ds := by
  induction fuel with
  | zero => intro n ds; simp [Nat.toDigitsCore]
  | succ fuel ih =>
    intro n ds
    unfold Nat.toDigitsCore
    simp only []
    by_cases h0 : n / 10 = 0
    · simp [h0]
    · simp only [h0, if_false]
      rw [ih (n / 10) (_ :: ds), ih (n / 10) [_]]
      simp

theorem decimalValue_toDigitsCore (fuel : Nat) :
    ∀ n : Nat, n < fuel → decimalValue (Nat.toDigitsCore 10 fuel n []) = n := by
  induction fuel with
  | zero => intro n h; omega
  | succ fuel ih =>
    intro n h
    unfold Nat.toDigitsCore
    simp only []
    by_cases h0 : n / 10 = 0
    · simp only [h0, if_true]
      have hn : n % 10 = n := by omega
      have hd := digitChar_toNat_sub (Nat.mod_lt n (by decide))
      rw [hn] at hd
      simp [decimalValue, hn, hd]
    · simp only [h0, if_false]
      have hlt : n / 10 < fuel := by omega
      rw [toDigitsCore_append]
      have := ih (n / 10) hlt
      unfold decimalValue at this ⊢
      rw [List.foldl_append, this]
      simp [digitChar_toNat_sub (Nat.mod_lt n (by decide))]
      omega

theorem nat_repr_injective : Function.Injective Nat.repr := by
  intro a b h
  have h' : Nat.toDigits 10 a = Nat.toDigits 10 b := by
    have := congrArg String.data h
    simpa [Nat.repr, List.asString] using this
  have ha := decimalValue_toDigitsCore (a + 1) a (by omega)
  have hb := decimalValue_toDigitsCore (b + 1) b (by omega)
  unfold Nat.toDigits at h'
  rw [h'] at ha
  omega

theorem string_length_append_pos (base t : String) : base.length < (base ++ "-" ++ t).length := by
  simp [String.length_append]
  have : ("-" : String).length = 1 := rfl
  omega

theorem slugCandidate_injective (base : String) : Function.Injective (slugCandidate base) := by
  intro a b h
  cases a with
  | zero =>
    cases b with
    | zero => rfl
    | succ b =>
      exfalso
      have := congrArg String.length h
      simp only [slugCandidate] at this
      have := string_length_append_pos base (Int.ofNat (b + 2)).repr
      omega
  | succ a =>
    cases b with
    | zero =>
      exfalso
      have := congrArg String.length h
      simp only [slugCandidate] at this
      have := string_length_append_pos base (Int.ofNat (a + 2)).repr
      omega
    | succ b =>
      simp only [slugCandidate, Int.repr] at h
      have h2 := congrArg String.data h
      simp only [String.data_append, List.append_cancel_left_eq] at h2
      have h3 : Nat.repr (a + 2) = Nat.repr (b + 2) := String.ext h2
      have := nat_repr_injective h3
      omega

/-! ## The loop of `uniqueSlug` -/

theorem probe_eq_heldByOther (db : Database) (table : String) (excludeID : Int)
    (hvalid : validTable table = true) (slug : String) :
    ∃ b : Bool,
      (if excludeID > 0 then dbSlugExistsExcluding db table slug excludeID
        else dbSlugExists db table slug) = (b, none) ∧
      (b = true ↔ heldByOther db table excludeID slug) := by
  by_cases hx : excludeID > 0
  · refine ⟨_, by simp only [hx, if_true, dbSlugExistsExcluding, hvalid]; rfl, ?_⟩
    simp only [decide_eq_true_eq, gt_iff_lt, List.countP_pos_iff, heldByOther]
    constructor
    · rintro ⟨r, hr, h⟩
      simp only [ne_eq, decide_eq_true_eq] at h
      exact ⟨r, hr, h.1, fun hh => h.2 hh.2⟩
    · rintro ⟨r, hr, h1, h2⟩
      refine ⟨r, hr, ?_⟩
      simp only [ne_eq, decide_eq_true_eq]
      exact ⟨h1, fun hh => h2 ⟨hx, hh⟩⟩
  · refine ⟨_, by simp only [hx, if_false, dbSlugExists, hvalid]; rfl, ?_⟩
    simp only [decide_eq_true_eq, gt_iff_lt, List.countP_pos_iff, heldByOther]
    constructor
    · rintro ⟨r, hr, h⟩
      exact ⟨r, hr, by simpa using h, fun hh => hx hh.1⟩
    · rintro ⟨r, hr, h1, _⟩
      exact ⟨r, hr, by simpa using h1⟩

theorem uniqueSlugLoop_first_free (probe : String → Bool × GoError) (base : String)
    (held : String → Prop)
    (hprobe : ∀ s, ∃ b : Bool, probe s = (b, none) ∧ (b = true ↔ held s))
    (k : Nat) (hfree : ¬held (slugCandidate base k))
    (hheld : ∀ j < k, held (slugCandidate base j)) (hk : (k : Int) + 2 ≤ maxInt64) :
    ∀ (fuel j : Nat), j ≤ k → k - j < fuel →
      uniqueSlugLoop probe base fuel ((j : Int) + 2) (slugCandidate base j)
        = some (slugCandidate base k, none) := by
  intro fuel
  induction fuel with
  | zero => intro j _ h; omega
  | succ fuel ih =>
    intro j hjk hfuel
    obtain ⟨b, hb, hiff⟩ := hprobe (slugCandidate base j)
    rw [uniqueSlugLoop, hb]
    rcases Nat.lt_or_ge j k with hlt | hge
    · have hbt : b = true := hiff.2 (hheld j hlt)
      subst hbt
      simp only
      have hw : wrap64 ((j : Int) + 2 + 1) = ((j + 1 : Nat) : Int) + 2 := by
        rw [wrap64_eq_self (by unfold minInt64; omega) (by omega)]
        push_cast; ring
      have hc : base ++ "-" ++ ((j : Int) + 2).repr = slugCandidate base (j + 1) := by
        simp only [slugCandidate]
        rfl
      rw [hw, hc]
      exact ih (j + 1) (by omega) (by omega)
    · have hjk' : j = k := by omega
      subst hjk'
      have hbf : b = false := by
        cases b with
        | false => rfl
        | true => exact absurd (hiff.1 rfl) hfree
      subst hbf
      rfl

theorem exists_free_candidate (db : Database) (table : String) (excludeID : Int)
    (base : String) :
    ∃ k, k ≤ (db.content table).length ∧
      ¬heldByOther db table excludeID (slugCandidate base k) := by
  by_contra hcon
  push_neg at hcon
  have hsub : (List.range ((db.content table).length + 1)).map (slugCandidate base)
      ⊆ (db.content table).map (fun r => r.slug) := by
    intro s hs
    simp only [List.mem_map, List.mem_range] at hs
    obtain ⟨j, hj, rfl⟩ := hs
    obtain ⟨r, hr, hslug, _⟩ := hcon j (by omega)
    exact List.mem_map.2 ⟨r, hr, hslug⟩
  have hnodup : ((List.range ((db.content table).length + 1)).map
      (slugCandidate base)).Nodup :=
    (List.nodup_range _).map (slugCandidate_injective base)
  have hlen := (List.subperm_of_subset hnodup hsub).length_le
  simp at hlen

theorem exists_first_free_candidate (db : Database) (table : String) (excludeID : Int)
    (base : String) :
    ∃ k, k ≤ (db.content table).length ∧
      ¬heldByOther db table excludeID (slugCandidate base k) ∧
      ∀ j < k, heldByOther db table excludeID (slugCandidate base j) := by
  classical
  have hex : ∃ k, ¬heldByOther db table excludeID (slugCandidate base k) := by
    obtain ⟨k, _, hk⟩ := exists_free_candidate db table excludeID base
    exact ⟨k, hk⟩
  refine ⟨Nat.find hex, ?_, Nat.find_spec hex, ?_⟩
  · obtain ⟨k, hkn, hk⟩ := exists_free_candidate db table excludeID base
    exact le_trans (Nat.find_min' hex hk) hkn
  · intro j hj
    by_contra hnot
    exact Nat.find_min hex hj hnot

theorem uniqueSlug_eq_first_free (toLower : Char → Char) (db : Database)
    (table artist title : String) (excludeID : Int) (fuel : Nat)
    (hvalid : validTable table = true)
    (hsize : ((db.content table).length : Int) + 2 ≤ maxInt64)
    (hfuel : (db.content table).length < fuel) :
    ∃ k, k ≤ (db.content table).length ∧
      uniqueSlug fuel toLower db table artist title excludeID
        = some (slugCandidate (generateSlug toLower artist title) k, none) ∧
      ¬heldByOther db table excludeID
        (slugCandidate (generateSlug toLower artist title) k) ∧
      ∀ j < k, heldByOther db table excludeID
        (slugCandidate (generateSlug toLower artist title) j) := by
  obtain ⟨k, hkn, hfree, hheld⟩ :=
    exists_first_free_candidate db table excludeID (generateSlug toLower artist title)
  have h := uniqueSlugLoop_first_free _ (generateSlug toLower artist title)
    (heldByOther db table excludeID)
    (probe_eq_heldByOther db table excludeID hvalid) k hfree hheld (by omega) fuel 0
    (Nat.zero_le k) (by omega)
  exact ⟨k, hkn, by simpa [uniqueSlug, slugCandidate] using h, hfree, hheld⟩

/-! ## C7 -/

/-- C7. On a valid table (so that no lookup fails) and with fuel for one probe
more than the table has rows, `uniqueSlug` returns the first free candidate of
the sequence `base`, `base-2`, `base-3`, …, `base = generateSlug artist title`:
the candidate it returns is not held by another record and every earlier
candidate is. In particular it returns `base` when `base` is free, and `x-y-3`
when `base` is `x-y` and exactly `x-y` and `x-y-2` are held by other records.
The hypothesis `hsize` says that the number of rows, plus 2, fits Go's `int`,
so that the loop counter does not wrap around. -/
theorem uniqueSlug_first_free (toLower : Char → Char) (db : Database)
    (table artist title : String) (excludeID : Int) (fuel : Nat)
    (hvalid : validTable table = true)
    (hsize : ((db.content table).length : Int) + 2 ≤ maxInt64)
    (hfuel : (db.content table).length < fuel) :
    (∃ k, k ≤ (db.content table).length ∧
        uniqueSlug fuel toLower db table artist title excludeID
          = some (slugCandidate (generateSlug toLower artist title) k, none) ∧
        ¬heldByOther db table excludeID
          (slugCandidate (generateSlug toLower artist title) k) ∧
        ∀ j < k, heldByOther db table excludeID
          (slugCandidate (generateSlug toLower artist title) j)) ∧
      (¬heldByOther db table excludeID (generateSlug toLower artist title) →
        uniqueSlug fuel toLower db table artist title excludeID
          = some (generateSlug toLower artist title, none)) ∧
      (generateSlug toLower artist title = "x-y" →
        (∀ s, heldByOther db table excludeID s ↔ s = "x-y" ∨ s = "x-y-2") →
        uniqueSlug fuel toLower db table artist title excludeID = some ("x-y-3", none)) := by
  obtain ⟨k, hkn, hrun, hfree, hheld⟩ :=
    uniqueSlug_eq_first_free toLower db table artist title excludeID fuel hvalid hsize hfuel
  refine ⟨⟨k, hkn, hrun, hfree, hheld⟩, ?_, ?_⟩
  · intro hbase
    have hk0 : k = 0 := by
      by_contra hne
      exact hbase (hheld 0 (Nat.pos_of_ne_zero hne))
    rw [hrun, hk0]
    rfl
  · intro hb hiff
    rw [hb] at hfree hheld hrun
    have h0 : heldByOther db table excludeID (slugCandidate "x-y" 0) :=
      (hiff _).2 (Or.inl rfl)
    have h1 : heldByOther db table excludeID (slugCandidate "x-y" 1) :=
      (hiff _).2 (Or.inr (by decide))
    have h2 : ¬heldByOther db table excludeID (slugCandidate "x-y" 2) := by
      rw [hiff]
      decide
    have hk2 : k = 2 := by
      rcases Nat.lt_trichotomy k 2 with hlt | heq | hgt
      · interval_cases k
        · exact absurd h0 hfree
        · exact absurd h1 hfree
      · exact heq
      · exact absurd (hheld 2 hgt) h2
    rw [hrun, hk2]
    decide

/-- Witness of C7 on `sampleDatabase`: creating ("x", "y") in `albums`, where
`x-y` and `x-y-2` are taken, yields `x-y-3`. -/
theorem uniqueSlug_first_free_witness :
    validTable "albums" = true ∧
      generateSlug Char.toLower "x" "y" = "x-y" ∧
      uniqueSlug 3 Char.toLower sampleDatabase "albums" "x" "y" 0 = some ("x-y-3", none) := by
  have h := uniqueSlug_first_free Char.toLower sampleDatabase "albums" "x" "y" 0 3
    (by decide) (by decide) (by decide)
  refine ⟨by decide, by decide, h.2.2 (by decide) ?_⟩
  intro s
  simp only [heldByOther, sampleDatabase, if_true, List.mem_cons, List.mem_singleton,
    List.not_mem_nil, or_false]
  constructor
  · rintro ⟨r, hr | hr, hs, _⟩
    · subst hr; exact Or.inl hs.symm
    · subst hr; exact Or.inr hs.symm
  · rintro (h | h)
    · exact ⟨⟨1, "x-y"⟩, Or.inl rfl, h.symm, fun hh => absurd hh.1 (by decide)⟩
    · exact ⟨⟨2, "x-y-2"⟩, Or.inr rfl, h.symm, fun hh => absurd hh.1 (by decide)⟩

/-! ## Content writes keep slugs and ids distinct -/

theorem setTable_content (db : Database) (table : String) (rows : List Row) (t : String) :
    (db.setTable table rows).content t = if t = table then rows else db.content t := rfl

theorem unique_setTable (db : Database) (table : String) (rows : List Row)
    (hs : SlugsUnique db) (hi : IdsUnique db)
    (hrs : (rows.map (fun r => r.slug)).Nodup) (hri : (rows.map (fun r => r.id)).Nodup) :
    SlugsUnique (db.setTable table rows) ∧ IdsUnique (db.setTable table rows) := by
  constructor
  · intro t
    rw [setTable_content]
    split
    · exact hrs
    · exact hs t
  · intro t
    rw [setTable_content]
    split
    · exact hri
    · exact hi t

theorem unique_dbCreateReview (db : Database) (table : String) (newID : Int) (slug : String)
    (rating : Rating) (hs : SlugsUnique db) (hi : IdsUnique db) :
    SlugsUnique (dbCreateReview db table newID slug rating).1 ∧
      IdsUnique (dbCreateReview db table newID slug rating).1 := by
  unfold dbCreateReview
  split_ifs with h1 h0 h2 h3
  · exact ⟨hs, hi⟩
  · exact ⟨hs, hi⟩
  · exact ⟨hs, hi⟩
  · exact ⟨hs, hi⟩
  · apply unique_setTable db table _ hs hi
    · rw [List.map_append, List.nodup_append]
      refine ⟨hs table, by simp, ?_⟩
      intro a ha hb
      simp only [List.map_cons, List.map_nil, List.mem_singleton] at hb
      subst hb
      obtain ⟨r, hr, hrs⟩ := List.mem_map.1 ha
      exact h3 (List.any_eq_true.2 ⟨r, hr, by simpa using hrs⟩)
    · rw [List.map_append, List.nodup_append]
      refine ⟨hi table, by simp, ?_⟩
      intro a ha hb
      simp only [List.map_cons, List.map_nil, List.mem_singleton] at hb
      subst hb
      obtain ⟨r, hr, hrs⟩ := List.mem_map.1 ha
      exact h2 (List.any_eq_true.2 ⟨r, hr, by simpa using hrs⟩)

theorem nodup_slugs_setSlug (rows : List Row) (id : Int) (slug : String)
    (hs : (rows.map (fun r => r.slug)).Nodup) (hi : (rows.map (fun r => r.id)).Nodup)
    (hfree : ∀ r ∈ rows, r.id ≠ id → r.slug ≠ slug) :
    ((rows.map (fun r => if r.id = id then { r with slug := slug } else r)).map
      (fun r => r.slug)).Nodup := by
  rw [List.map_map]
  rw [List.Nodup, List.pairwise_map] at hs hi ⊢
  refine (hs.and hi).imp_of_mem ?_
  intro a b ha hb hab
  obtain ⟨hsl, hid⟩ := hab
  simp only [Function.comp]
  by_cases h1 : a.id = id <;> by_cases h2 : b.id = id
  · exact absurd (h1.trans h2.symm) hid
  · simp only [h1, h2, if_true, if_false]
    exact fun h => hfree b hb h2 h.symm
  · simp only [h1, h2, if_true, if_false]
    exact hfree a ha h1
  · simp only [h1, h2, if_false]
    exact hsl

theorem map_id_setSlug (rows : List Row) (id : Int) (slug : String) :
    (rows.map (fun r => if r.id = id then { r with slug := slug } else r)).map
      (fun r => r.id) = rows.map (fun r => r.id) := by
  rw [List.map_map]
  apply List.map_congr_left
  intro r _
  simp only [Function.comp]
  split <;> rfl

theorem unique_dbUpdateReview (db : Database) (table : String) (id : Int) (slug : String)
    (rating : Rating) (hs : SlugsUnique db) (hi : IdsUnique db) :
    SlugsUnique (dbUpdateReview db table id slug rating).1 ∧
      IdsUnique (dbUpdateReview db table id slug rating).1 := by
  unfold dbUpdateReview
  split_ifs with h1 h0 h2
  · exact ⟨hs, hi⟩
  · exact ⟨hs, hi⟩
  · exact ⟨hs, hi⟩
  · apply unique_setTable db table _ hs hi
    · by_cases hex : (db.content table).any (fun r => r.id = id) = true
      · apply nodup_slugs_setSlug _ _ _ (hs table) (hi table)
        intro r hr hne hsl
        apply h2
        refine ⟨hex, List.any_eq_true.2 ⟨r, hr, ?_⟩⟩
        simp [hne, hsl]
      · have hnone : ∀ r ∈ db.content table, r.id ≠ id := by
          intro r hr hid
          exact hex (List.any_eq_true.2 ⟨r, hr, by simp [hid]⟩)
        have hmap : (db.content table).map
            (fun r => if r.id = id then { r with slug := slug } else r) = db.content table := by
          conv_rhs => rw [← List.map_id (db.content table)]
          apply List.map_congr_left
          intro r hr
          simp [hnone r hr]
        rw [hmap]
        exact hs table
    · rw [map_id_setSlug]
      exact hi table

theorem unique_dbDeleteReview (db : Database) (table : String) (id : Int)
    (hs : SlugsUnique db) (hi : IdsUnique db) :
    SlugsUnique (dbDeleteReview db table id).1 ∧ IdsUnique (dbDeleteReview db table id).1 := by
  unfold dbDeleteReview
  split_ifs with h1
  · exact ⟨hs, hi⟩
  · apply unique_setTable db table _ hs hi
    · exact (hs table).sublist ((List.filter_sublist _).map _)
    · exact (hi table).sublist ((List.filter_sublist _).map _)

theorem handleCreate_fst (toLower : Char → Char) (db : Database) (table : String)
    (form : ReviewForm) (newID : Int) :
    (handleCreate toLower db table form newID).1 = db ∨
      ∃ slug rating, (handleCreate toLower db table form newID).1
        = (dbCreateReview db table newID slug rating).1 := by
  unfold handleCreate
  dsimp only
  repeat' split
  all_goals first
    | exact Or.inl rfl
    | (rename_i heq; exact Or.inr ⟨_, _, congrArg Prod.fst heq.symm⟩)

theorem handleUpdate_fst (toLower : Char → Char) (db : Database) (table : String)
    (id : Option Int) (form : ReviewForm) :
    (handleUpdate toLower db table id form).1 = db ∨
      ∃ i slug rating, (handleUpdate toLower db table id form).1
        = (dbUpdateReview db table i slug rating).1 := by
  unfold handleUpdate
  dsimp only
  repeat' split
  all_goals first
    | exact Or.inl rfl
    | (rename_i heq; exact Or.inr ⟨_, _, _, congrArg Prod.fst heq.symm⟩)

theorem handleDelete_fst (db : Database) (table : String) (id : Option Int) :
    (handleDelete db table id).1 = db ∨
      ∃ i, (handleDelete db table id).1 = (dbDeleteReview db table i).1 := by
  unfold handleDelete
  repeat' split
  all_goals first
    | exact Or.inl rfl
    | (rename_i heq; exact Or.inr ⟨_, congrArg Prod.fst heq.symm⟩)

theorem unique_apply (toLower : Char → Char) (db : Database) (w : ContentWrite)
    (hs : SlugsUnique db) (hi : IdsUnique db) :
    SlugsUnique (w.apply toLower db) ∧ IdsUnique (w.apply toLower db) := by
  cases w with
  | create table form newID =>
    rcases handleCreate_fst toLower db table form newID with h | ⟨slug, rating, h⟩
    · simp only [ContentWrite.apply, h]; exact ⟨hs, hi⟩
    · simp only [ContentWrite.apply, h]
      exact unique_dbCreateReview db table newID slug rating hs hi
  | update table id form =>
    rcases handleUpdate_fst toLower db table id form with h | ⟨i, slug, rating, h⟩
    · simp only [ContentWrite.apply, h]; exact ⟨hs, hi⟩
    · simp only [ContentWrite.apply, h]
      exact unique_dbUpdateReview db table i slug rating hs hi
  | delete table id =>
    rcases handleDelete_fst db table id with h | ⟨i, h⟩
    · simp only [ContentWrite.apply, h]; exact ⟨hs, hi⟩
    · simp only [ContentWrite.apply, h]; exact unique_dbDeleteReview db table i hs hi

theorem unique_runWrites (toLower : Char → Char) (ws : List ContentWrite) :
    ∀ db : Database, SlugsUnique db → IdsUnique db →
      SlugsUnique (runWrites toLower db ws) ∧ IdsUnique (runWrites toLower db ws) := by
  induction ws with
  | nil => intro db hs hi; exact ⟨hs, hi⟩
  | cons w ws ih =>
    intro db hs hi
    obtain ⟨hs', hi'⟩ := unique_apply toLower db w hs hi
    exact ih (w.apply toLower db) hs' hi'

theorem dbCreateReview_eq (db : Database) (table : String) (newID : Int) (slug : String)
    (rating : Rating) (hvalid : validTable table = true) (hrating : rating ≠ Rating.nan)
    (hfresh : ∀ r ∈ db.content table, r.id ≠ newID)
    (hfree : ∀ r ∈ db.content table, r.slug ≠ slug) :
    dbCreateReview db table newID slug rating
      = (db.setTable table (db.content table ++ [⟨newID, slug⟩]), none) := by
  have h0 : rating.isNull = false := by
    cases rating with
    | within => rfl
    | outside => rfl
    | nan => exact absurd rfl hrating
  have h1 : (db.content table).any (fun r => r.id = newID) = false := by
    rw [List.any_eq_false]
    intro r hr
    simpa using hfresh r hr
  have h2 : (db.content table).any (fun r => r.slug = slug) = false := by
    rw [List.any_eq_false]
    intro r hr
    simpa using hfree r hr
  simp [dbCreateReview, hvalid, h0, h1, h2]

theorem dbCreateReview_nan (db : Database) (table : String) (newID : Int) (slug : String)
    (hvalid : validTable table = true) :
    dbCreateReview db table newID slug Rating.nan
      = (db, some "NOT NULL constraint failed: rating") := by
  simp [dbCreateReview, hvalid, Rating.isNull]

theorem dbUpdateReview_eq (db : Database) (table : String) (id : Int) (slug : String)
    (rating : Rating) (hvalid : validTable table = true) (hrating : rating ≠ Rating.nan)
    (hfree : ∀ r ∈ db.content table, r.id ≠ id → r.slug ≠ slug) :
    dbUpdateReview db table id slug rating
      = (db.setTable table
          ((db.content table).map (fun r => if r.id = id then { r with slug := slug } else r)),
          none) := by
  have h0 : rating.isNull = false := by
    cases rating with
    | within => rfl
    | outside => rfl
    | nan => exact absurd rfl hrating
  have h2 : (db.content table).any (fun r => r.id ≠ id ∧ r.slug = slug) = false := by
    rw [List.any_eq_false]
    intro r hr
    have := hfree r hr
    simp only [ne_eq, decide_eq_true_eq, not_and]
    exact this
  unfold dbUpdateReview
  rw [if_neg (by simp [hvalid]), if_neg (by rw [h0]; simp), if_neg (by rw [h2]; simp)]

theorem dbUpdateReview_nan (db : Database) (table : String) (id : Int) (slug : String)
    (hvalid : validTable table = true) (hexists : ∃ r ∈ db.content table, r.id = id) :
    dbUpdateReview db table id slug Rating.nan
      = (db, some "NOT NULL constraint failed: rating") := by
  have h1 : (db.content table).any (fun r => r.id = id) = true := by
    obtain ⟨r, hr, hid⟩ := hexists
    exact List.any_eq_true.2 ⟨r, hr, by simp [hid]⟩
  unfold dbUpdateReview
  rw [if_neg (by simp [hvalid]), if_pos ⟨h1, rfl⟩]

theorem handleCreate_commits (toLower : Char → Char) (db : Database) (table : String)
    (form : ReviewForm) (newID : Int)
    (hvalid : validTable table = true) (hform : form.accepted table)
    (hsize : ((db.content table).length : Int) + 2 ≤ maxInt64)
    (hfresh : ∀ r ∈ db.content table, r.id ≠ newID) :
    ∃ slug,
      uniqueSlug ((db.content table).length + 1) toLower db table (form.artistFor table)
        form.title 0 = some (slug, none) ∧
      (∀ r ∈ db.content table, r.slug ≠ slug) ∧
      handleCreate toLower db table form newID
        = if form.ratingFor table = Rating.nan then
            (db, .httpError "Internal server error" 500)
          else
            (db.setTable table (db.content table ++ [⟨newID, slug⟩]),
              .redirect "/admin/" 303 none) := by
  obtain ⟨k, _, hrun, hfree, _⟩ := uniqueSlug_eq_first_free toLower db table
    (form.artistFor table) form.title 0 ((db.content table).length + 1) hvalid hsize
    (Nat.lt_succ_self _)
  have hfree' : ∀ r ∈ db.content table,
      r.slug ≠ slugCandidate (generateSlug toLower (form.artistFor table) form.title) k := by
    intro r hr hs
    exact hfree ⟨r, hr, hs, fun hh => absurd hh.1 (by decide)⟩
  refine ⟨_, hrun, hfree', ?_⟩
  obtain ⟨hp, ht, hu, ha⟩ := hform
  unfold ReviewForm.artistFor at hrun hfree'
  unfold handleCreate
  by_cases hart : table = "articles"
  · subst hart
    simp only [beq_self_eq_true, if_true] at hrun hfree'
    simp [hp, hvalid, ht, hu, hrun,
      dbCreateReview_eq _ _ _ _ Rating.within hvalid (by decide) hfresh hfree',
      ReviewForm.artistFor, ReviewForm.ratingFor]
  · obtain ⟨ha1, ha2⟩ := ha hart
    have hb : (table == "articles") = false := by simpa using hart
    simp only [hb, Bool.false_eq_true, if_false] at hrun hfree'
    cases hr : form.rating with
    | within =>
      simp [hp, hvalid, ht, hu, hrun, hb, ha1, hr, Rating.outOfBounds,
        dbCreateReview_eq _ _ _ _ Rating.within hvalid (by decide) hfresh hfree',
        ReviewForm.artistFor, ReviewForm.ratingFor]
    | outside =>
      rw [hr] at ha2
      exact absurd ha2 (by decide)
    | nan =>
      simp [hp, hvalid, ht, hu, hrun, hb, ha1, hr, Rating.outOfBounds,
        dbCreateReview_nan _ _ _ _ hvalid, ReviewForm.artistFor, ReviewForm.ratingFor]

theorem handleUpdate_commits (toLower : Char → Char) (db : Database) (table : String)
    (form : ReviewForm) (id : Int)
    (hvalid : validTable table = true) (hform : form.accepted table)
    (hsize : ((db.content table).length : Int) + 2 ≤ maxInt64)
    (hexists : ∃ r ∈ db.content table, r.id = id) :
    ∃ slug,
      uniqueSlug ((db.content table).length + 1) toLower db table (form.artistFor table)
        form.title id = some (slug, none) ∧
      (∀ r ∈ db.content table, r.id ≠ id → r.slug ≠ slug) ∧
      handleUpdate toLower db table (some id) form
        = if form.ratingFor table = Rating.nan then
            (db, .httpError "Internal server error" 500)
          else
            (db.setTable table
              ((db.content table).map
                (fun r => if r.id = id then { r with slug := slug } else r)),
              .redirect "/admin/" 303 none) := by
  obtain ⟨k, _, hrun, hfree, _⟩ := uniqueSlug_eq_first_free toLower db table
    (form.artistFor table) form.title id ((db.content table).length + 1) hvalid hsize
    (Nat.lt_succ_self _)
  have hfree' : ∀ r ∈ db.content table, r.id ≠ id →
      r.slug ≠ slugCandidate (generateSlug toLower (form.artistFor table) form.title) k := by
    intro r hr hne hs
    exact hfree ⟨r, hr, hs, fun hh => hne hh.2⟩
  refine ⟨_, hrun, hfree', ?_⟩
  obtain ⟨row, hget⟩ : ∃ row, dbGetByID db table id = some row := by
    unfold dbGetByID
    simp only [hvalid, Bool.not_true, Bool.false_eq_true, if_false]
    cases hfind : (db.content table).find? (fun r => decide (r.id = id)) with
    | some row => exact ⟨row, rfl⟩
    | none =>
      exfalso
      obtain ⟨r, hr, hid⟩ := hexists
      have := List.find?_eq_none.1 hfind r hr
      simp [hid] at this
  obtain ⟨hp, ht, hu, ha⟩ := hform
  unfold ReviewForm.artistFor at hrun hfree'
  unfold handleUpdate
  by_cases hart : table = "articles"
  · subst hart
    simp only [beq_self_eq_true, if_true] at hrun hfree'
    simp [hp, hvalid, ht, hu, hrun, hget,
      dbUpdateReview_eq _ _ _ _ Rating.within hvalid (by decide) hfree',
      ReviewForm.artistFor, ReviewForm.ratingFor]
  · obtain ⟨ha1, ha2⟩ := ha hart
    have hb : (table == "articles") = false := by simpa using hart
    simp only [hb, Bool.false_eq_true, if_false] at hrun hfree'
    cases hr : form.rating with
    | within =>
      simp [hp, hvalid, ht, hu, hrun, hget, hb, ha1, hr, Rating.outOfBounds,
        dbUpdateReview_eq _ _ _ _ Rating.within hvalid (by decide) hfree',
        ReviewForm.artistFor, ReviewForm.ratingFor]
    | outside =>
      rw [hr] at ha2
      exact absurd ha2 (by decide)
    | nan =>
      simp [hp, hvalid, ht, hu, hrun, hget, hb, ha1, hr, Rating.outOfBounds,
        dbUpdateReview_nan _ _ _ _ hvalid hexists, ReviewForm.artistFor,
        ReviewForm.ratingFor]

theorem sampleDatabase_unique : SlugsUnique sampleDatabase ∧ IdsUnique sampleDatabase := by
  constructor <;> intro t <;> simp only [sampleDatabase] <;> split <;> decide

theorem sampleEmptyDatabase_unique :
    SlugsUnique sampleEmptyDatabase ∧ IdsUnique sampleEmptyDatabase := by
  constructor <;> intro t <;> exact List.nodup_nil

/-! ## C8 -/

/-- C8. Slug uniqueness is an invariant of sequential content writes. From any
database whose content tables have pairwise distinct slugs (and pairwise
distinct ids, `id` being the primary key), a table without rows included, every
sequence `ws` of create, update and delete requests leaves the slugs of every
table pairwise distinct, whatever the forms hold. And the writes of the claim
are the ones the handlers make. On a valid table, with a form that passes the
checks and a fresh `newID`, `uniqueSlug(table, artist, title, 0)` returns a slug;
`handleCreate` inserts the row `(newID, slug)` and redirects with status 303
when the rating is a number, and answers 500 and writes nothing when the rating
is NaN, which the column `rating REAL NOT NULL` turns down. Likewise
`handleUpdate` of an existing row `id` overwrites that row's slug with
`uniqueSlug(table, artist, title, id)`, or answers 500 and writes nothing for
the rating NaN. The `UNIQUE` constraint on the slug column never turns such a
write down, and the store the write gives has pairwise distinct slugs. The
hypothesis on the length says that the number of rows, plus 2, fits Go's
`int`. -/
theorem slugs_unique_invariant (toLower : Char → Char) (db : Database)
    (hs : SlugsUnique db) (hi : IdsUnique db) :
    (∀ ws : List ContentWrite,
      SlugsUnique (runWrites toLower db ws) ∧ IdsUnique (runWrites toLower db ws)) ∧
      (∀ (table : String) (form : ReviewForm) (newID : Int),
        validTable table = true → form.accepted table →
        ((db.content table).length : Int) + 2 ≤ maxInt64 →
        (∀ r ∈ db.content table, r.id ≠ newID) →
        ∃ slug,
          uniqueSlug ((db.content table).length + 1) toLower db table (form.artistFor table)
            form.title 0 = some (slug, none) ∧
          (form.ratingFor table ≠ Rating.nan →
            handleCreate toLower db table form newID
              = (db.setTable table (db.content table ++ [⟨newID, slug⟩]),
                  .redirect "/admin/" 303 none)) ∧
          (form.ratingFor table = Rating.nan →
            handleCreate toLower db table form newID
              = (db, .httpError "Internal server error" 500)) ∧
          SlugsUnique (db.setTable table (db.content table ++ [⟨newID, slug⟩]))) ∧
      (∀ (table : String) (form : ReviewForm) (id : Int),
        validTable table = true → form.accepted table →
        ((db.content table).length : Int) + 2 ≤ maxInt64 →
        (∃ r ∈ db.content table, r.id = id) →
        ∃ slug,
          uniqueSlug ((db.content table).length + 1) toLower db table (form.artistFor table)
            form.title id = some (slug, none) ∧
          (form.ratingFor table ≠ Rating.nan →
            handleUpdate toLower db table (some id) form
              = (db.setTable table
                  ((db.content table).map
                    (fun r => if r.id = id then { r with slug := slug } else r)),
                  .redirect "/admin/" 303 none)) ∧
          (form.ratingFor table = Rating.nan →
            handleUpdate toLower db table (some id) form
              = (db, .httpError "Internal server error" 500)) ∧
          SlugsUnique (db.setTable table
            ((db.content table).map
              (fun r => if r.id = id then { r with slug := slug } else r)))) := by
  refine ⟨fun ws => unique_runWrites toLower ws db hs hi, ?_, ?_⟩
  · intro table form newID hvalid hform hsize hfresh
    obtain ⟨slug, h1, hfree, h2⟩ :=
      handleCreate_commits toLower db table form newID hvalid hform hsize hfresh
    refine ⟨slug, h1, ?_, ?_, ?_⟩
    · intro hr
      rw [h2, if_neg hr]
    · intro hr
      rw [h2, if_pos hr]
    · have := (unique_dbCreateReview db table newID slug Rating.within hs hi).1
      rw [dbCreateReview_eq db table newID slug Rating.within hvalid (by decide) hfresh
        hfree] at this
      exact this
  · intro table form id hvalid hform hsize hexists
    obtain ⟨slug, h1, hfree, h2⟩ :=
      handleUpdate_commits toLower db table form id hvalid hform hsize hexists
    refine ⟨slug, h1, ?_, ?_, ?_⟩
    · intro hr
      rw [h2, if_neg hr]
    · intro hr
      rw [h2, if_pos hr]
    · have := (unique_dbUpdateReview db table id slug Rating.within hs hi).1
      rw [dbUpdateReview_eq db table id slug Rating.within hvalid (by decide) hfree]
        at this
      exact this

/-- Witness of C8. On `sampleDatabase` a create, an update, a create with the
rating NaN and a delete in a row keep the slugs distinct; the create inserts
`x-y-3`, the update keeps `x-y` for row 1, and with the rating NaN both
handlers answer 500 and leave the database as it is. On `sampleEmptyDatabase`
the create inserts `x-y` into the empty table `songs`. -/
theorem slugs_unique_invariant_witness :
    SlugsUnique sampleDatabase ∧ IdsUnique sampleDatabase ∧
      SlugsUnique (runWrites Char.toLower sampleDatabase
        [.create "albums" sampleForm 3, .update "albums" (some 1) sampleForm,
          .create "albums" sampleNaNForm 4, .delete "albums" (some 2)]) ∧
      (handleCreate Char.toLower sampleDatabase "albums" sampleForm 3).1.content "albums"
        = [⟨1, "x-y"⟩, ⟨2, "x-y-2"⟩, ⟨3, "x-y-3"⟩] ∧
      handleCreate Char.toLower sampleDatabase "albums" sampleNaNForm 3
        = (sampleDatabase, .httpError "Internal server error" 500) ∧
      (handleUpdate Char.toLower sampleDatabase "albums" (some 1) sampleForm).1.content
        "albums" = [⟨1, "x-y"⟩, ⟨2, "x-y-2"⟩] ∧
      handleUpdate Char.toLower sampleDatabase "albums" (some 1) sampleNaNForm
        = (sampleDatabase, .httpError "Internal server error" 500) ∧
      SlugsUnique sampleEmptyDatabase ∧
      SlugsUnique (runWrites Char.toLower sampleEmptyDatabase
        [.create "songs" sampleForm 1, .delete "songs" (some 1)]) ∧
      (handleCreate Char.toLower sampleEmptyDatabase "songs" sampleForm 1).1.content "songs"
        = [⟨1, "x-y"⟩] := by
  have h := slugs_unique_invariant Char.toLower sampleDatabase
    sampleDatabase_unique.1 sampleDatabase_unique.2
  have h0 := slugs_unique_invariant Char.toLower sampleEmptyDatabase
    sampleEmptyDatabase_unique.1 sampleEmptyDatabase_unique.2
  have hacc : sampleForm.accepted "albums" := ⟨rfl, by decide, rfl, fun _ => ⟨by decide, rfl⟩⟩
  have hnan : sampleNaNForm.accepted "albums" :=
    ⟨rfl, by decide, rfl, fun _ => ⟨by decide, rfl⟩⟩
  have hacc0 : sampleForm.accepted "songs" := ⟨rfl, by decide, rfl, fun _ => ⟨by decide, rfl⟩⟩
  refine ⟨sampleDatabase_unique.1, sampleDatabase_unique.2, (h.1 _).1, ?_, ?_, ?_, ?_,
    sampleEmptyDatabase_unique.1, (h0.1 _).1, ?_⟩
  · obtain ⟨slug, h1, h2, _, _⟩ :=
      h.2.1 "albums" sampleForm 3 (by decide) hacc (by decide) (by decide)
    have hv : uniqueSlug ((sampleDatabase.content "albums").length + 1) Char.toLower
        sampleDatabase "albums" (sampleForm.artistFor "albums") sampleForm.title 0
        = some ("x-y-3", none) := by decide
    rw [hv] at h1
    have hslug : slug = "x-y-3" := (congrArg Prod.fst (Option.some.inj h1)).symm
    rw [h2 (by decide), hslug]
    decide
  · obtain ⟨_, _, _, h3, _⟩ :=
      h.2.1 "albums" sampleNaNForm 3 (by decide) hnan (by decide) (by decide)
    exact h3 (by decide)
  · obtain ⟨slug, h1, h2, _, _⟩ :=
      h.2.2 "albums" sampleForm 1 (by decide) hacc (by decide) (by decide)
    have hv : uniqueSlug ((sampleDatabase.content "albums").length + 1) Char.toLower
        sampleDatabase "albums" (sampleForm.artistFor "albums") sampleForm.title 1
        = some ("x-y", none) := by decide
    rw [hv] at h1
    have hslug : slug = "x-y" := (congrArg Prod.fst (Option.some.inj h1)).symm
    rw [h2 (by decide), hslug]
    decide
  · obtain ⟨_, _, _, h3, _⟩ :=
      h.2.2 "albums" sampleNaNForm 1 (by decide) hnan (by decide) (by decide)
    exact h3 (by decide)
  · obtain ⟨slug, h1, h2, _, _⟩ :=
      h0.2.1 "songs" sampleForm 1 (by decide) hacc0 (by decide) (by decide)
    have hv : uniqueSlug ((sampleEmptyDatabase.content "songs").length + 1) Char.toLower
        sampleEmptyDatabase "songs" (sampleForm.artistFor "songs") sampleForm.title 0
        = some ("x-y", none) := by decide
    rw [hv] at h1
    have hslug : slug = "x-y" := (congrArg Prod.fst (Option.some.inj h1)).symm
    rw [h2 (by decide), hslug]
    decide

/-! ## C9 -/

theorem dbGetSession_dbDeleteSession (db : Database) (token : String) :
    dbGetSession (dbDeleteSession db token) token = none := by
  unfold dbGetSession dbDeleteSession
  rw [List.find?_eq_none]
  intro s hs
  have := (List.mem_filter.1 hs).2
  simpa using this

/-- Counterexample to C9 as stated. At the expiry instant itself the gate lets
the request through and keeps the session: with a session expiring at clock
reading 100 and a request carrying
its token at clock reading 100, which is not strictly before the expiry,
`requireAuth` runs the handler behind it and the session record is still
there. -/
theorem requireAuth_passes_at_expiry :
    dbGetSession sampleAuth.db "tok" = some ⟨"tok", 1, 100⟩ ∧ ¬((100 : Int) < 100) ∧
      (requireAuth sampleNext sampleAuth (sampleRequest "" "") 100).2
        = .render "admin/dashboard.html" none ∧
      (requireAuth sampleNext sampleAuth (sampleRequest "" "") 100).1.db.sessions
        = [⟨"tok", 1, 100⟩] := by
  refine ⟨by decide, by decide, by decide, by decide⟩

/-- C9, as amended. For a request carrying the token of a session record with
expiry `E`, at clock reading `now`: if `now` is at or before `E` (`now = E`
included) the gate lets the request through, that is, it does exactly what the
handler behind it does; if `now` is strictly after `E` the gate answers with
the redirect to the login page and deletes the session record, so that no
session is found under the token afterwards. -/
theorem requireAuth_expiry (next : Handler) (h : authHandler) (r : Request) (now : Int)
    (token : String) (session : Session)
    (hcookie : r.sessionCookie = some token)
    (hsession : dbGetSession h.db token = some session) :
    (now ≤ session.ExpiresAt → requireAuth next h r now = next h r now) ∧
      (session.ExpiresAt < now →
        requireAuth next h r now
            = ({ h with db := dbDeleteSession h.db token }, redirectToLogin none) ∧
          dbGetSession (requireAuth next h r now).1.db token = none) := by
  constructor
  · intro hle
    simp only [requireAuth, hcookie, hsession]
    rw [if_neg (by omega)]
  · intro hlt
    have heq : requireAuth next h r now
        = ({ h with db := dbDeleteSession h.db token }, redirectToLogin none) := by
      simp only [requireAuth, hcookie, hsession]
      rw [if_pos (by omega)]
    exact ⟨heq, by rw [heq]; exact dbGetSession_dbDeleteSession h.db token⟩

/-- Witness of amended C9 on `sampleAuth` (session `tok` expiring at 100): let
through at clock readings 99 and 100, turned away at 101 with the session
deleted. -/
theorem requireAuth_expiry_witness :
    (sampleRequest "" "").sessionCookie = some "tok" ∧
      dbGetSession sampleAuth.db "tok" = some ⟨"tok", 1, 100⟩ ∧
      requireAuth sampleNext sampleAuth (sampleRequest "" "") 99
        = sampleNext sampleAuth (sampleRequest "" "") 99 ∧
      requireAuth sampleNext sampleAuth (sampleRequest "" "") 100
        = sampleNext sampleAuth (sampleRequest "" "") 100 ∧
      (requireAuth sampleNext sampleAuth (sampleRequest "" "") 101).2 = redirectToLogin none ∧
      dbGetSession (requireAuth sampleNext sampleAuth (sampleRequest "" "") 101).1.db "tok"
        = none :=
  ⟨rfl, by decide,
    (requireAuth_expiry sampleNext sampleAuth (sampleRequest "" "") 99 "tok" ⟨"tok", 1, 100⟩
      rfl (by decide)).1 (by decide),
    (requireAuth_expiry sampleNext sampleAuth (sampleRequest "" "") 100 "tok" ⟨"tok", 1, 100⟩
      rfl (by decide)).1 (by decide),
    congrArg Prod.snd
      ((requireAuth_expiry sampleNext sampleAuth (sampleRequest "" "") 101 "tok"
        ⟨"tok", 1, 100⟩ rfl (by decide)).2 (by decide)).1,
    ((requireAuth_expiry sampleNext sampleAuth (sampleRequest "" "") 101 "tok"
      ⟨"tok", 1, 100⟩ rfl (by decide)).2 (by decide)).2⟩

/-! ## C10 -/

theorem cooldown_snd_of_lt_three (ll : loginLimiter) (ip : String) (now : Int)
    (h : failureCount ll ip < 3) : (cooldown ll ip now).2 = 0 := by
  unfold failureCount at h
  unfold cooldown
  cases hrec : ll.attempts ip with
  | none => rfl
  | some a =>
    rw [hrec] at h
    simp only at h
    simp [h]

theorem handleLogin_of_invalid (cmp : String → String → Bool)
    (random : Option (Fin 32 → Fin 256)) (h : authHandler) (r : Request) (now : Int)
    (hpass : (cooldown h.limiter (clientIP r) now).2 ≤ 0)
    (hbad : ¬validCredentials cmp h.db r) :
    (handleLogin cmp random h r now).1
      = { h with limiter := recordFailure h.limiter (clientIP r) now } := by
  have hfst := cooldown_fst h.limiter (clientIP r) now
  unfold handleLogin
  dsimp only
  rw [if_neg (by omega), hfst]
  cases hu : dbGetUserByUsername h.db r.username with
  | none => rfl
  | some u =>
    have hc : cmp u.PasswordHash r.password = false := by
      cases hcmp : cmp u.PasswordHash r.password with
      | false => rfl
      | true => exact absurd ⟨u, hu, hcmp⟩ hbad
    simp [hc]

theorem handleLogin_of_valid (cmp : String → String → Bool)
    (random : Option (Fin 32 → Fin 256)) (h : authHandler) (r : Request) (now : Int)
    (hpass : (cooldown h.limiter (clientIP r) now).2 ≤ 0)
    (hok : validCredentials cmp h.db r) :
    (handleLogin cmp random h r now).1.limiter = reset h.limiter (clientIP r) := by
  have hfst := cooldown_fst h.limiter (clientIP r) now
  obtain ⟨u, hu, hc⟩ := hok
  unfold handleLogin
  dsimp only
  rw [if_neg (by omega), hfst]
  simp only [hu, hc, Bool.not_true, Bool.false_eq_true, if_false]
  cases random with
  | none => rfl
  | some bytes =>
    dsimp only
    split <;> rfl

/-- C10. From an address without a limiter record, two login attempts that fail
verification followed by one with valid credentials, at any clock readings
`t₁`, `t₂`, `t₃`, leave the address without a record, so that `cooldown` for it
is 0 at every clock reading. And every login attempt that passes the cooldown
check and carries valid credentials leaves its address without a record,
whether or not the session is then issued. -/
theorem login_success_resets (cmp : String → String → Bool)
    (rnd₁ rnd₂ rnd₃ : Option (Fin 32 → Fin 256)) (h : authHandler)
    (r₁ r₂ r₃ : Request) (t₁ t₂ t₃ : Int) (ip : String)
    (hip₁ : clientIP r₁ = ip) (hip₂ : clientIP r₂ = ip) (hip₃ : clientIP r₃ = ip)
    (hnone : h.limiter.attempts ip = none)
    (hbad₁ : ¬validCredentials cmp h.db r₁) (hbad₂ : ¬validCredentials cmp h.db r₂)
    (hok₃ : validCredentials cmp h.db r₃) :
    ((handleLogin cmp rnd₃
        (handleLogin cmp rnd₂ (handleLogin cmp rnd₁ h r₁ t₁).1 r₂ t₂).1 r₃ t₃).1.limiter.attempts
        ip = none ∧
      ∀ t : Int, (cooldown (handleLogin cmp rnd₃
        (handleLogin cmp rnd₂ (handleLogin cmp rnd₁ h r₁ t₁).1 r₂ t₂).1 r₃ t₃).1.limiter
        ip t).2 = 0) ∧
      ∀ (g : authHandler) (r : Request) (now : Int) (rnd : Option (Fin 32 → Fin 256)),
        (cooldown g.limiter (clientIP r) now).2 ≤ 0 → validCredentials cmp g.db r →
        (handleLogin cmp rnd g r now).1.limiter.attempts (clientIP r) = none ∧
          failureCount (handleLogin cmp rnd g r now).1.limiter (clientIP r) = 0 := by
  have hgen : ∀ (g : authHandler) (r : Request) (now : Int)
      (rnd : Option (Fin 32 → Fin 256)),
      (cooldown g.limiter (clientIP r) now).2 ≤ 0 → validCredentials cmp g.db r →
      (handleLogin cmp rnd g r now).1.limiter.attempts (clientIP r) = none ∧
        failureCount (handleLogin cmp rnd g r now).1.limiter (clientIP r) = 0 := by
    intro g r now rnd hpass hok
    have hnone' : (handleLogin cmp rnd g r now).1.limiter.attempts (clientIP r) = none := by
      rw [handleLogin_of_valid cmp rnd g r now hpass hok]
      exact reset_attempts_self g.limiter (clientIP r)
    exact ⟨hnone', by simp [failureCount, hnone']⟩
  refine ⟨?_, hgen⟩
  subst hip₁
  have hc0 : failureCount h.limiter (clientIP r₁) = 0 := by simp [failureCount, hnone]
  -- first failed attempt
  have h1 := handleLogin_of_invalid cmp rnd₁ h r₁ t₁
    (le_of_eq (cooldown_snd_of_lt_three _ _ _ (by omega))) hbad₁
  have hc1 : failureCount (handleLogin cmp rnd₁ h r₁ t₁).1.limiter (clientIP r₁) = 1 := by
    rw [h1]
    simp only
    rw [failureCount_recordFailure_self _ _ _ (by rw [hc0]; decide) (by rw [hc0]; decide), hc0]
    rfl
  have hdb1 : (handleLogin cmp rnd₁ h r₁ t₁).1.db = h.db := by rw [h1]
  -- second failed attempt
  have h2 := handleLogin_of_invalid cmp rnd₂ (handleLogin cmp rnd₁ h r₁ t₁).1 r₂ t₂
    (le_of_eq (cooldown_snd_of_lt_three _ _ _ (by rw [hip₂, hc1]; decide)))
    (by rw [hdb1]; exact hbad₂)
  have hc2 : failureCount
      (handleLogin cmp rnd₂ (handleLogin cmp rnd₁ h r₁ t₁).1 r₂ t₂).1.limiter (clientIP r₁)
      = 2 := by
    rw [h2, hip₂]
    simp only
    rw [failureCount_recordFailure_self _ _ _ (by rw [hc1]; decide) (by rw [hc1]; decide), hc1]
    rfl
  have hdb2 : (handleLogin cmp rnd₂ (handleLogin cmp rnd₁ h r₁ t₁).1 r₂ t₂).1.db = h.db := by
    rw [h2]
    exact hdb1
  -- the successful attempt
  have h3 := hgen (handleLogin cmp rnd₂ (handleLogin cmp rnd₁ h r₁ t₁).1 r₂ t₂).1 r₃ t₃ rnd₃
    (le_of_eq (cooldown_snd_of_lt_three _ _ _ (by rw [hip₃, hc2]; decide)))
    (by rw [hdb2]; exact hok₃)
  rw [hip₃] at h3
  refine ⟨h3.1, ?_⟩
  intro t
  exact cooldown_snd_of_lt_three _ _ _ (by rw [h3.2]; decide)

/-- Witness of C10 on `sampleAuth`: a wrong password, an unknown user, then the
right password, all from `203.0.113.7`. -/
theorem login_success_resets_witness :
    clientIP (sampleRequest "admin" "secret") = "203.0.113.7" ∧
      sampleAuth.limiter.attempts "203.0.113.7" = none ∧
      validCredentials sampleCompare sampleAuth.db (sampleRequest "admin" "secret") ∧
      (handleLogin sampleCompare (some (fun _ => 7))
        (handleLogin sampleCompare none
          (handleLogin sampleCompare none sampleAuth (sampleRequest "admin" "wrong") 10).1
          (sampleRequest "nobody" "secret") 20).1
        (sampleRequest "admin" "secret") 30).1.limiter.attempts "203.0.113.7" = none ∧
      (cooldown (handleLogin sampleCompare (some (fun _ => 7))
        (handleLogin sampleCompare none
          (handleLogin sampleCompare none sampleAuth (sampleRequest "admin" "wrong") 10).1
          (sampleRequest "nobody" "secret") 20).1
        (sampleRequest "admin" "secret") 30).1.limiter "203.0.113.7" 31).2 = 0 := by
  have hok : validCredentials sampleCompare sampleAuth.db (sampleRequest "admin" "secret") :=
    ⟨⟨1, "admin", "hash-of-secret"⟩, by decide, by decide⟩
  have hbad₁ : ¬validCredentials sampleCompare sampleAuth.db
      (sampleRequest "admin" "wrong") := by
    rintro ⟨u, hu, hc⟩
    have hfind : dbGetUserByUsername sampleAuth.db (sampleRequest "admin" "wrong").username
        = some ⟨1, "admin", "hash-of-secret"⟩ := by decide
    rw [hfind] at hu
    cases hu
    revert hc
    decide
  have hbad₂ : ¬validCredentials sampleCompare sampleAuth.db
      (sampleRequest "nobody" "secret") := by
    rintro ⟨u, hu, _⟩
    have hfind : dbGetUserByUsername sampleAuth.db (sampleRequest "nobody" "secret").username
        = none := by decide
    rw [hfind] at hu
    cases hu
  have h := login_success_resets sampleCompare none none (some (fun _ => 7)) sampleAuth
    (sampleRequest "admin" "wrong") (sampleRequest "nobody" "secret")
    (sampleRequest "admin" "secret") 10 20 30 "203.0.113.7"
    (by decide) (by decide) (by decide) rfl hbad₁ hbad₂ hok
  exact ⟨by decide, rfl, hok, h.1.1, h.1.2 31⟩

/-! ## C11 -/

theorem handleLogout_sessions (h : authHandler) (r : Request) (now : Int) :
    (handleLogout h r now).1.db.sessions
      = h.db.sessions.filter (fun s => decide (r.sessionCookie ≠ some s.Token)) := by
  unfold handleLogout
  cases hc : r.sessionCookie with
  | none => simp
  | some value =>
    simp only [dbDeleteSession]
    apply List.filter_congr
    intro s _
    simp only [ne_eq, Option.some.injEq, decide_not, Bool.not_eq_eq_eq_not, Bool.not_not]
    by_cases hs : s.Token = value
    · simp [hs]
    · have : ¬value = s.Token := fun hh => hs hh.symm
      simp [hs, this]

/-- C11. `handleLogout` is an idempotent delete on the session store that
cannot fail. Whatever the store holds and whatever the request presents (the
token of a session, an unknown token, or no cookie): the answer is the redirect
to the login page, status 303, carrying the cookie that clears the session
cookie; the sessions kept are exactly the former ones whose token is not the
presented one, in their order and unchanged, so no session is found under the
presented token afterwards; users, content tables and limiter are untouched; and
a second logout with the same request, at any clock reading, gives the same
state and the same answer as the first. -/
theorem handleLogout_idempotent (h : authHandler) (r : Request) (now now' : Int) :
    (handleLogout h r now).2 = redirectToLogin (some clearedSessionCookie) ∧
      (handleLogout h r now).2.status = 303 ∧
      (handleLogout h r now).1.db.sessions
        = h.db.sessions.filter (fun s => decide (r.sessionCookie ≠ some s.Token)) ∧
      (∀ token, r.sessionCookie = some token →
        dbGetSession (handleLogout h r now).1.db token = none) ∧
      (handleLogout h r now).1.db.users = h.db.users ∧
      (handleLogout h r now).1.db.content = h.db.content ∧
      (handleLogout h r now).1.limiter = h.limiter ∧
      handleLogout (handleLogout h r now).1 r now' = handleLogout h r now := by
  refine ⟨rfl, rfl, handleLogout_sessions h r now, ?_, ?_, ?_, rfl, ?_⟩
  · intro token hc
    unfold handleLogout
    simp only [hc]
    exact dbGetSession_dbDeleteSession h.db token
  · unfold handleLogout
    cases r.sessionCookie <;> rfl
  · unfold handleLogout
    cases r.sessionCookie <;> rfl
  · unfold handleLogout
    cases r.sessionCookie with
    | none => rfl
    | some value => simp [dbDeleteSession, List.filter_filter]

/-! ## C12 -/

/-- Counterexample to C12 as stated. A request to the logout route whose cookie
holds the token `gone`, which matches no session record of `sampleAuth`, is
answered by the gate with the redirect to the login page, and that response sets
no cookie: the session cookie is not cleared. -/
theorem logoutRoute_unknown_token_sets_no_cookie :
    sampleStaleRequest.sessionCookie = some "gone" ∧
      dbGetSession sampleAuth.db "gone" = none ∧
      (logoutRoute sampleAuth sampleStaleRequest 50).2 = .redirect "/admin/login" 303 none ∧
      (logoutRoute sampleAuth sampleStaleRequest 50).2.setCookie ≠ some clearedSessionCookie := by
  refine ⟨rfl, by decide, by decide, by decide⟩

/-- C12, as amended. A request to the logout route that carries a session
cookie whose token matches no session record is not answered with an error: the
answer is a redirect with status 303 (to the login page from the `requireAuth`
gate, or to `/setup` while there is no user), it sets no cookie, so the session
cookie is not cleared, and the state is unchanged. The cookie is cleared for the
requests that pass the gate: when there is a user and the token is that of a
session not past its expiry, the route does what `handleLogout` does. -/
theorem logoutRoute_unknown_token (h : authHandler) (r : Request) (now : Int)
    (token : String) (hcookie : r.sessionCookie = some token)
    (hnone : dbGetSession h.db token = none) :
    requireAuth handleLogout h r now = (h, redirectToLogin none) ∧
      (logoutRoute h r now).1 = h ∧
      (logoutRoute h r now).2.status = 303 ∧
      (logoutRoute h r now).2.setCookie = none ∧
      ∀ (g : authHandler) (q : Request) (t : Int) (session : Session),
        g.db.users ≠ [] → q.sessionCookie = some session.Token →
        dbGetSession g.db session.Token = some session → t ≤ session.ExpiresAt →
        logoutRoute g q t = handleLogout g q t ∧
          (logoutRoute g q t).2.setCookie = some clearedSessionCookie := by
  have hgate : requireAuth handleLogout h r now = (h, redirectToLogin none) := by
    simp only [requireAuth, hcookie, hnone]
  refine ⟨hgate, ?_, ?_, ?_, ?_⟩
  · unfold logoutRoute setupGuard
    split
    · rw [hgate]
    · rfl
  · unfold logoutRoute setupGuard
    split
    · rw [hgate]; rfl
    · rfl
  · unfold logoutRoute setupGuard
    split
    · rw [hgate]; rfl
    · rfl
  · intro g q t session husers hc hs hle
    have hpos : g.db.users.length > 0 := List.length_pos.2 husers
    have hroute : logoutRoute g q t = handleLogout g q t := by
      unfold logoutRoute setupGuard
      rw [if_pos hpos]
      simp only [requireAuth, hc, hs]
      rw [if_neg (by omega)]
    exact ⟨hroute, by rw [hroute]; rfl⟩

/-- Witness of amended C12 on `sampleAuth`: the token `gone` is turned away
without a cookie, the token `tok` of the session expiring at 100 is logged out
at clock reading 50 with the cookie cleared. -/
theorem logoutRoute_unknown_token_witness :
    sampleStaleRequest.sessionCookie = some "gone" ∧
      dbGetSession sampleAuth.db "gone" = none ∧
      (logoutRoute sampleAuth sampleStaleRequest 50).2.status = 303 ∧
      (logoutRoute sampleAuth sampleStaleRequest 50).2.setCookie = none ∧
      (logoutRoute sampleAuth (sampleRequest "" "") 50).2.setCookie
        = some clearedSessionCookie :=
  have h := logoutRoute_unknown_token sampleAuth sampleStaleRequest 50 "gone" rfl
    (by decide)
  ⟨rfl, by decide, h.2.2.1, h.2.2.2.1,
    (h.2.2.2.2 sampleAuth (sampleRequest "" "") 50 ⟨"tok", 1, 100⟩ (by decide) rfl
      (by decide) (by decide)).2⟩

/-! ## C13 -/

theorem takeWhile_append_cons_stop {α : Type} (p : α → Bool) (l m : List α) (a : α)
    (hl : ∀ x ∈ l, p x = true) (ha : p a = false) :
    (l ++ a :: m).takeWhile p = l := by
  induction l with
  | nil => simp [List.takeWhile, ha]
  | cons x xs ih =>
    have hx : p x = true := hl x (List.mem_cons_self x xs)
    simp only [List.cons_append, List.takeWhile_cons, hx, if_true]
    rw [ih (fun y hy => hl y (List.mem_cons_of_mem x hy))]

theorem dropWhile_append_cons_stop {α : Type} (p : α → Bool) (l m : List α) (a : α)
    (hl : ∀ x ∈ l, p x = true) (ha : p a = false) :
    (l ++ a :: m).dropWhile p = a :: m := by
  induction l with
  | nil => simp [List.dropWhile, ha]
  | cons x xs ih =>
    have hx : p x = true := hl x (List.mem_cons_self x xs)
    simp only [List.cons_append, List.dropWhile_cons, hx, if_true]
    exact ih (fun y hy => hl y (List.mem_cons_of_mem x hy))

/-- C13. `clientIP` for every request. With a non-empty `X-Forwarded-For`
header the result is the part of the header before its first comma, and the
whole header when it has no comma. With an empty header the result is the
connection address without its trailing port: `host` for every address
`host:port` whose port has no colon, and the address itself when it has no
colon. -/
theorem clientIP_resolution (r : Request) :
    (r.forwardedFor ≠ "" →
        (∀ first rest : String, r.forwardedFor = first ++ "," ++ rest →
          ',' ∉ first.data → clientIP r = first) ∧
        (',' ∉ r.forwardedFor.data → clientIP r = r.forwardedFor)) ∧
      (r.forwardedFor = "" →
        (∀ host port : String, r.RemoteAddr = host ++ ":" ++ port →
          ':' ∉ port.data → clientIP r = host) ∧
        (':' ∉ r.RemoteAddr.data → clientIP r = r.RemoteAddr)) := by
  constructor
  · intro hfwd
    constructor
    · intro first rest heq hfirst
      unfold clientIP
      rw [if_pos hfwd, heq]
      have hdata : (first ++ "," ++ rest).data = first.data ++ ',' :: rest.data := by
        simp [String.data_append]
      rw [hdata, takeWhile_append_cons_stop _ _ _ _ _ (by simp)]
      intro x hx
      have : x ≠ ',' := fun hh => hfirst (hh ▸ hx)
      simpa using this
    · intro hno
      unfold clientIP
      rw [if_pos hfwd]
      have : r.forwardedFor.data.takeWhile (· ≠ ',') = r.forwardedFor.data := by
        rw [List.takeWhile_eq_self_iff]
        intro x hx
        have : x ≠ ',' := fun hh => hno (hh ▸ hx)
        simpa using this
      rw [this]
  · intro hfwd
    constructor
    · intro host port heq hport
      unfold clientIP
      rw [if_neg (by simp [hfwd])]
      have hdata : r.RemoteAddr.data = host.data ++ ':' :: port.data := by
        rw [heq]; simp [String.data_append]
      have hmem : ':' ∈ r.RemoteAddr.data := by rw [hdata]; simp
      simp only [hmem, if_true, hdata]
      have hrev : (host.data ++ ':' :: port.data).reverse
          = port.data.reverse ++ ':' :: host.data.reverse := by simp
      rw [hrev, dropWhile_append_cons_stop _ _ _ _ _ (by simp)]
      · simp
      · intro x hx
        have : x ≠ ':' := fun hh => hport (hh ▸ List.mem_reverse.1 hx)
        simpa using this
    · intro hno
      unfold clientIP
      rw [if_neg (by simp [hfwd])]
      simp only [hno, if_false]

/-- Witness of C13: a forwarded chain, a forwarded single address, an IPv6
connection address with port, and a connection address without colon. -/
theorem clientIP_resolution_witness :
    clientIP ⟨"10.0.0.1:80", "198.51.100.4, 10.0.0.9", none, "", ""⟩ = "198.51.100.4" ∧
      clientIP ⟨"10.0.0.1:80", "198.51.100.4", none, "", ""⟩ = "198.51.100.4" ∧
      clientIP ⟨"[2001:db8::1]:52044", "", none, "", ""⟩ = "[2001:db8::1]" ∧
      clientIP ⟨"localhost", "", none, "", ""⟩ = "localhost" :=
  ⟨((clientIP_resolution ⟨"10.0.0.1:80", "198.51.100.4, 10.0.0.9", none, "", ""⟩).1
      (by decide)).1 "198.51.100.4" " 10.0.0.9" (by decide) (by decide),
    ((clientIP_resolution ⟨"10.0.0.1:80", "198.51.100.4", none, "", ""⟩).1
      (by decide)).2 (by decide),
    ((clientIP_resolution ⟨"[2001:db8::1]:52044", "", none, "", ""⟩).2 rfl).1
      "[2001:db8::1]" "52044" (by decide) (by decide),
    ((clientIP_resolution ⟨"localhost", "", none, "", ""⟩).2 rfl).2 (by decide)⟩

/-! ## C14 -/

theorem digitChar_mem_hex {n : Nat} (h : n < 16) :
    Nat.digitChar n ∈ "0123456789abcdef".data := by
  interval_cases n <;> decide

theorem digitChar_injective_of_lt {m n : Nat} (hm : m < 16) (hn : n < 16)
    (h : Nat.digitChar m = Nat.digitChar n) : m = n := by
  interval_cases m <;> interval_cases n <;> first | rfl | (exfalso; revert h; decide)

theorem length_flatMap_hex (l : List (Fin 256)) :
    (l.flatMap
      (fun b => [Nat.digitChar (b.val / 16), Nat.digitChar (b.val % 16)])).length
      = 2 * l.length := by
  induction l with
  | nil => rfl
  | cons b bs ih => simp [List.flatMap_cons, ih]; omega

theorem flatMap_hex_injective :
    ∀ l m : List (Fin 256),
      l.flatMap (fun b => [Nat.digitChar (b.val / 16), Nat.digitChar (b.val % 16)])
        = m.flatMap (fun b => [Nat.digitChar (b.val / 16), Nat.digitChar (b.val % 16)]) →
      l = m := by
  intro l
  induction l with
  | nil =>
    intro m h
    cases m with
    | nil => rfl
    | cons b bs => simp [List.flatMap_cons] at h
  | cons a as ih =>
    intro m h
    cases m with
    | nil => simp [List.flatMap_cons] at h
    | cons b bs =>
      simp only [List.flatMap_cons, List.cons_append, List.nil_append, List.cons.injEq] at h
      obtain ⟨h1, h2, h3⟩ := h
      have e1 := digitChar_injective_of_lt (by omega) (by omega) h1
      have e2 := digitChar_injective_of_lt (by omega) (by omega) h2
      have hab : a = b := by
        apply Fin.ext
        omega
      rw [hab, ih bs h3]

theorem hexEncode_length (bytes : Fin 32 → Fin 256) : (hexEncode bytes).length = 64 := by
  unfold hexEncode
  show (List.flatMap _ _).length = 64
  rw [length_flatMap_hex, List.length_ofFn]

theorem hexEncode_hex (bytes : Fin 32 → Fin 256) :
    ∀ c ∈ (hexEncode bytes).data, c ∈ "0123456789abcdef".data := by
  intro c hc
  unfold hexEncode at hc
  simp only [List.mem_flatMap, List.mem_cons, List.mem_singleton, List.not_mem_nil,
    or_false] at hc
  obtain ⟨b, _, rfl | rfl⟩ := hc
  · exact digitChar_mem_hex (by omega)
  · exact digitChar_mem_hex (by omega)

theorem hexEncode_injective : Function.Injective hexEncode := by
  intro a b h
  unfold hexEncode at h
  have h' := flatMap_hex_injective _ _ (congrArg String.data h)
  exact List.ofFn_injective h'

/-- Counterexample to C14 as stated. The cookie of a successful login is not
marked secure: on `sampleAuth`, the login of `admin` with the right password at
clock reading 30 is answered with a session cookie whose `Secure` field is
`false`. -/
theorem handleLogin_cookie_not_secure :
    (handleLogin sampleCompare (some (fun _ => 7)) sampleAuth
        (sampleRequest "admin" "secret") 30).2.status = 303 ∧
      Option.map Cookie.Secure
        (handleLogin sampleCompare (some (fun _ => 7)) sampleAuth
          (sampleRequest "admin" "secret") 30).2.setCookie = some false := by
  refine ⟨by decide, by decide⟩

/-- C14, as amended. Every login that succeeds at clock reading `now`, that is,
every call of `handleLogin` answered with the redirect (status 303), has drawn
32 random bytes, found the user, and: appended to the sessions the record whose
token is the hex encoding of those bytes, owned by that user, expiring at
exactly `now + 24 h`; set that token as the session cookie with path `/admin`,
HTTP-only, strict same-site, max-age 86400 (the 24 hours of the session in
seconds), and not marked secure. The token has 64 characters, all of them
hexadecimal digits, and determines the 32 bytes. -/
theorem handleLogin_issues_session (cmp : String → String → Bool)
    (random : Option (Fin 32 → Fin 256)) (h : authHandler) (r : Request) (now : Int)
    (hsucc : (handleLogin cmp random h r now).2.status = 303) :
    ∃ (tokenBytes : Fin 32 → Fin 256) (user : User),
      random = some tokenBytes ∧
      dbGetUserByUsername h.db r.username = some user ∧
      (handleLogin cmp random h r now).1.db.sessions
        = h.db.sessions ++ [⟨hexEncode tokenBytes, user.ID, now + 24 * hour⟩] ∧
      (handleLogin cmp random h r now).2
        = .redirect "/admin/" 303
            (some ⟨sessionCookieName, hexEncode tokenBytes, "/admin", true, false,
              .strictMode, 86400⟩) ∧
      (hexEncode tokenBytes).length = 64 ∧
      (∀ c ∈ (hexEncode tokenBytes).data, c ∈ "0123456789abcdef".data) ∧
      (∀ other, hexEncode other = hexEncode tokenBytes → other = tokenBytes) ∧
      86400 * second = 24 * hour := by
  unfold handleLogin at hsucc ⊢
  dsimp only at hsucc ⊢
  by_cases hw : (cooldown h.limiter (clientIP r) now).2 > 0
  · rw [if_pos hw] at hsucc
    simp [Response.status] at hsucc
  · rw [if_neg hw] at hsucc ⊢
    cases hu : dbGetUserByUsername h.db r.username with
    | none =>
      rw [hu] at hsucc
      simp [Response.status] at hsucc
    | some u =>
      rw [hu] at hsucc
      dsimp only at hsucc ⊢
      cases hc : cmp u.PasswordHash r.password with
      | false =>
        simp [hc, Response.status] at hsucc
      | true =>
        simp only [hc, Bool.not_true, Bool.false_eq_true, if_false] at hsucc ⊢
        cases random with
        | none => simp [Response.status] at hsucc
        | some bytes =>
          dsimp only at hsucc ⊢
          unfold dbCreateSession at hsucc ⊢
          split_ifs at hsucc ⊢ with hany
          · simp [Response.status] at hsucc
          · exact ⟨bytes, u, rfl, rfl, rfl, rfl, hexEncode_length bytes, hexEncode_hex bytes,
              fun other ho => hexEncode_injective ho, by decide⟩

/-- Witness of amended C14 on `sampleAuth`: the login of `admin` at clock
reading 30 appends a session expiring at `30 + 24 h` and answers 303. -/
theorem handleLogin_issues_session_witness :
    (handleLogin sampleCompare (some (fun _ => 7)) sampleAuth
        (sampleRequest "admin" "secret") 30).2.status = 303 ∧
      (handleLogin sampleCompare (some (fun _ => 7)) sampleAuth
        (sampleRequest "admin" "secret") 30).1.db.sessions
        = [⟨"tok", 1, 100⟩, ⟨hexEncode (fun _ => 7), 1, 30 + 24 * hour⟩] := by
  have hsucc : (handleLogin sampleCompare (some (fun _ => 7)) sampleAuth
      (sampleRequest "admin" "secret") 30).2.status = 303 := by decide
  obtain ⟨bytes, user, hb, hu, hs, _⟩ :=
    handleLogin_issues_session sampleCompare (some (fun _ => 7)) sampleAuth
      (sampleRequest "admin" "secret") 30 hsucc
  refine ⟨hsucc, ?_⟩
  have hbytes : bytes = fun _ => 7 := (Option.some.inj hb).symm
  have huser : user = ⟨1, "admin", "hash-of-secret"⟩ := by
    have hfind : dbGetUserByUsername sampleAuth.db (sampleRequest "admin" "secret").username
        = some ⟨1, "admin", "hash-of-secret"⟩ := by decide
    rw [hfind] at hu
    exact (Option.some.inj hu).symm
  rw [hs, hbytes, huser]
  rfl

/-! ## C15 -/

theorem reset_attempts_other (ll : loginLimiter) (ip : String) {k : String} (hk : k ≠ ip) :
    (reset ll ip).attempts k = ll.attempts k := by
  simp [reset, hk]

theorem handleLogin_of_throttled (cmp : String → String → Bool)
    (random : Option (Fin 32 → Fin 256)) (h : authHandler) (r : Request) (now : Int)
    (hwait : (cooldown h.limiter (clientIP r) now).2 > 0) :
    handleLogin cmp random h r now
      = (h, .render "admin/login.html"
          (some ("Too many attempts. Try again in "
            ++ ((cooldown h.limiter (clientIP r) now).2 / second + 1).repr ++ "s."))) := by
  have hfst := cooldown_fst h.limiter (clientIP r) now
  unfold handleLogin
  dsimp only
  rw [if_pos hwait, hfst]

/-- C15. The effect of one `handleLogin` call on the limiter, with
`ip = clientIP r`. If `cooldown ip` is positive the call answers with the
throttling message and leaves limiter and database as they were, whatever the
credentials are. Otherwise, if the credentials are not valid (unknown user or
wrong password), the limiter afterwards is `recordFailure ip`, applied once, of
the limiter before, and the database is unchanged. Otherwise the limiter
afterwards is `reset ip` of the limiter before. In every case the record of
every other address is what it was. -/
theorem handleLogin_limiter_effect (cmp : String → String → Bool)
    (random : Option (Fin 32 → Fin 256)) (h : authHandler) (r : Request) (now : Int) :
    ((cooldown h.limiter (clientIP r) now).2 > 0 →
        handleLogin cmp random h r now
          = (h, .render "admin/login.html"
              (some ("Too many attempts. Try again in "
                ++ ((cooldown h.limiter (clientIP r) now).2 / second + 1).repr ++ "s.")))) ∧
      (¬(cooldown h.limiter (clientIP r) now).2 > 0 → ¬validCredentials cmp h.db r →
        (handleLogin cmp random h r now).1
          = { h with limiter := recordFailure h.limiter (clientIP r) now }) ∧
      (¬(cooldown h.limiter (clientIP r) now).2 > 0 → validCredentials cmp h.db r →
        (handleLogin cmp random h r now).1.limiter = reset h.limiter (clientIP r)) ∧
      ∀ k, k ≠ clientIP r →
        (handleLogin cmp random h r now).1.limiter.attempts k = h.limiter.attempts k := by
  refine ⟨handleLogin_of_throttled cmp random h r now, ?_, ?_, ?_⟩
  · intro hw hbad
    exact handleLogin_of_invalid cmp random h r now (by omega) hbad
  · intro hw hok
    exact handleLogin_of_valid cmp random h r now (by omega) hok
  · intro k hk
    by_cases hw : (cooldown h.limiter (clientIP r) now).2 > 0
    · rw [handleLogin_of_throttled cmp random h r now hw]
    · by_cases hok : validCredentials cmp h.db r
      · rw [handleLogin_of_valid cmp random h r now (by omega) hok]
        exact reset_attempts_other h.limiter (clientIP r) hk
      · rw [handleLogin_of_invalid cmp random h r now (by omega) hok]
        exact recordFailure_attempts_other h.limiter (clientIP r) now hk

/-- Witness of C15 on `sampleThrottled`, whose limiter holds four failures for
`203.0.113.7`, the last at clock reading 1000: a login with the right password
500 ns later is turned away with two seconds to wait, and the record stays. -/
theorem handleLogin_limiter_effect_witness :
    (cooldown sampleThrottled.limiter (clientIP (sampleRequest "admin" "secret")) 1500).2 > 0 ∧
      (handleLogin sampleCompare none sampleThrottled (sampleRequest "admin" "secret") 1500).2
        = .render "admin/login.html" (some "Too many attempts. Try again in 2s.") ∧
      (handleLogin sampleCompare none sampleThrottled
        (sampleRequest "admin" "secret") 1500).1.limiter.attempts "203.0.113.7"
        = some ⟨4, 1000⟩ := by
  have hw : (cooldown sampleThrottled.limiter
      (clientIP (sampleRequest "admin" "secret")) 1500).2 > 0 := by decide
  have h := (handleLogin_limiter_effect sampleCompare none sampleThrottled
    (sampleRequest "admin" "secret") 1500).1 hw
  refine ⟨hw, ?_, ?_⟩
  · rw [h]
    decide
  · rw [h]
    decide

/-! ## C16 -/

theorem cooldown_snd_congr (ll ll' : loginLimiter) (ip : String) (now : Int)
    (h : ll.attempts ip = ll'.attempts ip) :
    (cooldown ll ip now).2 = (cooldown ll' ip now).2 := by
  unfold cooldown
  rw [h]
  cases ll'.attempts ip with
  | none => rfl
  | some a =>
    dsimp only
    split_ifs <;> rfl

theorem recordFailures_attempts_other (ip : String) (ts : List Int) {k : String}
    (hk : k ≠ ip) :
    ∀ ll : loginLimiter, (recordFailures ll ip ts).attempts k = ll.attempts k := by
  induction ts with
  | nil => intro ll; rfl
  | cons t ts ih =>
    intro ll
    simp only [recordFailures, List.foldl_cons] at ih ⊢
    rw [ih (recordFailure ll ip t), recordFailure_attempts_other ll ip t hk]

/-- C16. Throttling is scoped per address. For two distinct addresses `a` and
`b`, neither `recordFailure a` nor `reset a` changes the record of `b` (its
failure count and last-failure time), so `cooldown b` at any clock reading `t`
is the same before and after; and no run of failures from `a`, however long,
changes what `b` has to wait. -/
theorem limiter_per_address (ll : loginLimiter) (a b : String) (now t : Int)
    (ts : List Int) (hab : a ≠ b) :
    (recordFailure ll a now).attempts b = ll.attempts b ∧
      (reset ll a).attempts b = ll.attempts b ∧
      (cooldown (recordFailure ll a now) b t).2 = (cooldown ll b t).2 ∧
      (cooldown (reset ll a) b t).2 = (cooldown ll b t).2 ∧
      (cooldown (recordFailures ll a ts) b t).2 = (cooldown ll b t).2 := by
  have hba : b ≠ a := fun h => hab h.symm
  have h1 := recordFailure_attempts_other ll a now hba
  have h2 := reset_attempts_other ll a hba
  exact ⟨h1, h2, cooldown_snd_congr _ _ b t h1, cooldown_snd_congr _ _ b t h2,
    cooldown_snd_congr _ _ b t (recordFailures_attempts_other a ts hba ll)⟩

/-- Witness of C16 on `sampleLimiter`: failures and a reset of `198.51.100.4`
leave the record of `203.0.113.7` and its wait at clock reading 1500 as they
were. -/
theorem limiter_per_address_witness :
    "198.51.100.4" ≠ "203.0.113.7" ∧
      (recordFailure sampleLimiter "198.51.100.4" 1200).attempts "203.0.113.7"
        = some ⟨4, 1000⟩ ∧
      (cooldown (recordFailures sampleLimiter "198.51.100.4" [1100, 1200, 1300, 1400])
        "203.0.113.7" 1500).2 = 2 * second - 500 := by
  have h := limiter_per_address sampleLimiter "198.51.100.4" "203.0.113.7" 1200 1500
    [1100, 1200, 1300, 1400] (by decide)
  refine ⟨by decide, ?_, ?_⟩
  · rw [h.1]
    decide
  · rw [h.2.2.2.2]
    decide

/-! ## The number of probes of `uniqueSlug` -/

theorem uniqueSlugLoop_stop (probe : String → Bool × GoError) (base : String) (k : Nat)
    (hheld : ∀ j < k, probe (slugCandidate base j) = (true, none))
    (hstop : probe (slugCandidate base k) ≠ (true, none))
    (hk : (k : Int) + 2 ≤ maxInt64) :
    ∀ (fuel j : Nat), j ≤ k → k - j < fuel →
      (∀ b err, probe (slugCandidate base k) = (b, some err) →
        uniqueSlugLoop probe base fuel ((j : Int) + 2) (slugCandidate base j)
          = some ("", some err)) ∧
      (probe (slugCandidate base k) = (false, none) →
        uniqueSlugLoop probe base fuel ((j : Int) + 2) (slugCandidate base j)
          = some (slugCandidate base k, none)) ∧
      uniqueSlugProbes probe base fuel ((j : Int) + 2) (slugCandidate base j) = k - j + 1 := by
  intro fuel
  induction fuel with
  | zero => intro j _ h; omega
  | succ fuel ih =>
    intro j hjk hfuel
    rcases Nat.lt_or_ge j k with hlt | hge
    · have hp := hheld j hlt
      have hw : wrap64 ((j : Int) + 2 + 1) = ((j + 1 : Nat) : Int) + 2 := by
        rw [wrap64_eq_self (by unfold minInt64; omega) (by omega)]
        push_cast; ring
      have hc : base ++ "-" ++ ((j : Int) + 2).repr = slugCandidate base (j + 1) := by
        simp only [slugCandidate]
        rfl
      obtain ⟨i1, i2, i3⟩ := ih (j + 1) (by omega) (by omega)
      refine ⟨?_, ?_, ?_⟩
      · intro b err hb
        rw [uniqueSlugLoop, hp]
        simp only
        rw [hw, hc]
        exact i1 b err hb
      · intro hb
        rw [uniqueSlugLoop, hp]
        simp only
        rw [hw, hc]
        exact i2 hb
      · rw [uniqueSlugProbes, hp]
        simp only
        rw [hw, hc, i3]
        omega
    · have hjk' : j = k := by omega
      subst hjk'
      refine ⟨?_, ?_, ?_⟩
      · intro b err hb
        rw [uniqueSlugLoop, hb]
        cases b <;> rfl
      · intro hb
        rw [uniqueSlugLoop, hb]
      · rw [uniqueSlugProbes]
        rcases hp : probe (slugCandidate base j) with ⟨b, e⟩
        cases b <;> cases e <;> first
          | (exfalso; exact hstop hp)
          | simp

theorem decimalValue_repr (n : Nat) : decimalValue (Nat.repr n).data = n := by
  have h := decimalValue_toDigitsCore (n + 1) n (Nat.lt_succ_self n)
  simpa [Nat.repr, Nat.toDigits, List.asString] using h

theorem isCandidateSlug_slugCandidate (base : String) (j : Nat) :
    isCandidateSlug base (slugCandidate base j) = true := by
  cases j with
  | zero => simp [isCandidateSlug, slugCandidate]
  | succ j =>
    have hdrop : ((slugCandidate base (j + 1)).data.drop (base.length + 1))
        = (Nat.repr (j + 2)).data := by
      simp only [slugCandidate, Int.repr, String.data_append]
      rw [List.append_assoc, List.drop_append_eq_append_drop]
      have h1 : List.drop (base.data.length + 1) base.data = [] :=
        List.drop_eq_nil_of_le (by omega)
      have h2 : base.data.length + 1 - base.data.length = 1 := by omega
      show List.drop (base.data.length + 1) base.data
        ++ List.drop (base.data.length + 1 - base.data.length) (['-'] ++ _) = _
      rw [h1, h2]
      rfl
    have hval : decimalValue ((slugCandidate base (j + 1)).data.drop (base.length + 1))
        = j + 2 := by
      rw [hdrop, decimalValue_repr]
    unfold isCandidateSlug
    rw [hval]
    simp [slugCandidate, Int.repr]

theorem first_free_le_collidingCount (db : Database) (table : String) (excludeID : Int)
    (base : String) (k : Nat)
    (hheld : ∀ j < k, heldByOther db table excludeID (slugCandidate base j)) :
    k ≤ collidingCount db table excludeID base := by
  have hsub : (List.range k).map (slugCandidate base)
      ⊆ ((db.content table).filter
          (fun r => isCandidateSlug base r.slug &&
            !(decide (0 < excludeID) && decide (r.id = excludeID)))).map
          (fun r => r.slug) := by
    intro s hs
    simp only [List.mem_map, List.mem_range] at hs
    obtain ⟨j, hj, rfl⟩ := hs
    obtain ⟨r, hr, hslug, hex⟩ := hheld j hj
    refine List.mem_map.2 ⟨r, List.mem_filter.2 ⟨hr, ?_⟩, hslug⟩
    rw [hslug, isCandidateSlug_slugCandidate]
    simp only [Bool.true_and, Bool.not_eq_true', Bool.and_eq_false_imp, decide_eq_true_eq,
      decide_eq_false_iff_not]
    intro h0 hid
    exact hex ⟨h0, hid⟩
  have hnodup : ((List.range k).map (slugCandidate base)).Nodup :=
    (List.nodup_range _).map (slugCandidate_injective base)
  have hlen := (List.subperm_of_subset hnodup hsub).length_le
  simp only [List.length_map, List.length_range] at hlen
  unfold collidingCount
  rw [List.countP_eq_length_filter]
  exact hlen

theorem probe_of_valid (db : Database) (table : String) (excludeID : Int)
    (hvalid : validTable table = true) (slug : String) :
    (heldByOther db table excludeID slug →
        (if excludeID > 0 then dbSlugExistsExcluding db table slug excludeID
          else dbSlugExists db table slug) = (true, none)) ∧
      (¬heldByOther db table excludeID slug →
        (if excludeID > 0 then dbSlugExistsExcluding db table slug excludeID
          else dbSlugExists db table slug) = (false, none)) := by
  obtain ⟨b, hb, hiff⟩ := probe_eq_heldByOther db table excludeID hvalid slug
  constructor
  · intro hheld
    rw [hb, hiff.2 hheld]
  · intro hfree
    cases b with
    | false => exact hb
    | true => exact absurd (hiff.1 rfl) hfree

theorem collidingCount_le_length (db : Database) (table : String) (excludeID : Int)
    (base : String) : collidingCount db table excludeID base ≤ (db.content table).length :=
  List.countP_le_length _

/-! ## C17 -/

/-- C17. On a valid table, whose lookups do not fail, `uniqueSlug` returns a
slug as soon as it may make `c + 1` probes, and it makes at most `c + 1` of
them, `c` being the number of rows of the table, the excluded one apart, whose
slug is `base` or of the form `base-n`; `c` is at most the number of rows. When
a lookup fails, for any probe function: if the first `k` candidates are reported
taken and the probe of the next one fails with `err`, the loop returns the
empty slug with `err` after exactly `k + 1` probes; against the store this
happens for an invalid table, at the first probe. `hsize` says that the number
of rows, plus 2, fits Go's `int`. -/
theorem uniqueSlug_probe_bound (toLower : Char → Char) (db : Database)
    (table artist title : String) (excludeID : Int) (fuel : Nat)
    (hvalid : validTable table = true)
    (hsize : ((db.content table).length : Int) + 2 ≤ maxInt64)
    (hfuel : collidingCount db table excludeID (generateSlug toLower artist title) < fuel) :
    (∃ slug, uniqueSlug fuel toLower db table artist title excludeID = some (slug, none)) ∧
      uniqueSlugProbeCount fuel toLower db table artist title excludeID
        ≤ collidingCount db table excludeID (generateSlug toLower artist title) + 1 ∧
      collidingCount db table excludeID (generateSlug toLower artist title)
        ≤ (db.content table).length ∧
      (∀ (probe : String → Bool × GoError) (base : String) (k : Nat) (b : Bool)
          (err : String) (n : Nat),
        (∀ j < k, probe (slugCandidate base j) = (true, none)) →
        probe (slugCandidate base k) = (b, some err) →
        (k : Int) + 2 ≤ maxInt64 → k < n →
        uniqueSlugLoop probe base n 2 base = some ("", some err) ∧
          uniqueSlugProbes probe base n 2 base = k + 1) ∧
      (∀ other : String, validTable other = false →
        uniqueSlug fuel toLower db other artist title excludeID
            = some ("", some ("invalid table: " ++ other)) ∧
          uniqueSlugProbeCount fuel toLower db other artist title excludeID = 1) := by
  have hgen : ∀ (probe : String → Bool × GoError) (base : String) (k : Nat) (b : Bool)
      (err : String) (n : Nat),
      (∀ j < k, probe (slugCandidate base j) = (true, none)) →
      probe (slugCandidate base k) = (b, some err) →
      (k : Int) + 2 ≤ maxInt64 → k < n →
      uniqueSlugLoop probe base n 2 base = some ("", some err) ∧
        uniqueSlugProbes probe base n 2 base = k + 1 := by
    intro probe base k b err n hheld hfail hk hn
    have hstop : probe (slugCandidate base k) ≠ (true, none) := by
      rw [hfail]
      intro hh
      cases hh
    obtain ⟨h1, _, h3⟩ := uniqueSlugLoop_stop probe base k hheld hstop hk n 0
      (Nat.zero_le k) (by omega)
    have h1' := h1 b err hfail
    simp only [Nat.cast_zero, zero_add, slugCandidate, Nat.sub_zero] at h1' h3
    exact ⟨h1', h3⟩
  obtain ⟨k, hkn, hfree, hheld⟩ :=
    exists_first_free_candidate db table excludeID (generateSlug toLower artist title)
  have hkc := first_free_le_collidingCount db table excludeID
    (generateSlug toLower artist title) k hheld
  have hstopEq := (probe_of_valid db table excludeID hvalid
    (slugCandidate (generateSlug toLower artist title) k)).2 hfree
  obtain ⟨_, h2, h3⟩ := uniqueSlugLoop_stop
    (fun slug =>
      if excludeID > 0 then dbSlugExistsExcluding db table slug excludeID
      else dbSlugExists db table slug)
    (generateSlug toLower artist title) k
    (fun j hj => (probe_of_valid db table excludeID hvalid _).1 (hheld j hj))
    (fun hh => by have := hstopEq.symm.trans hh; cases this)
    (by omega) fuel 0 (Nat.zero_le k) (by omega)
  have h2' := h2 hstopEq
  simp only [Nat.cast_zero, zero_add, slugCandidate, Nat.sub_zero] at h2' h3
  refine ⟨⟨_, h2'⟩, ?_, collidingCount_le_length db table excludeID _, hgen, ?_⟩
  · unfold uniqueSlugProbeCount
    dsimp only
    rw [h3]
    omega
  · intro other hother
    have hfail : ∀ slug,
        (if excludeID > 0 then dbSlugExistsExcluding db other slug excludeID
          else dbSlugExists db other slug) = (false, some ("invalid table: " ++ other)) := by
      intro slug
      split <;> simp [dbSlugExistsExcluding, dbSlugExists, hother]
    have := hgen
      (fun slug =>
        if excludeID > 0 then dbSlugExistsExcluding db other slug excludeID
        else dbSlugExists db other slug)
      (generateSlug toLower artist title) 0 false ("invalid table: " ++ other) fuel
      (fun j hj => absurd hj (Nat.not_lt_zero j)) (hfail _) (by decide) (by omega)
    exact this

/-- Witness of C17 on `sampleDatabase`, where `x-y` and `x-y-2` collide with the
slug of ("x", "y"): three probes are allowed and three are made; on a table
that does not exist the first probe fails. -/
theorem uniqueSlug_probe_bound_witness :
    validTable "albums" = true ∧
      collidingCount sampleDatabase "albums" 0 (generateSlug Char.toLower "x" "y") = 2 ∧
      (∃ slug, uniqueSlug 3 Char.toLower sampleDatabase "albums" "x" "y" 0
        = some (slug, none)) ∧
      uniqueSlugProbeCount 3 Char.toLower sampleDatabase "albums" "x" "y" 0 ≤ 2 + 1 ∧
      uniqueSlug 3 Char.toLower sampleDatabase "reviews" "x" "y" 0
        = some ("", some "invalid table: reviews") := by
  have h := uniqueSlug_probe_bound Char.toLower sampleDatabase "albums" "x" "y" 0 3
    (by decide) (by decide) (by decide)
  have hc : collidingCount sampleDatabase "albums" 0 (generateSlug Char.toLower "x" "y") = 2 := by
    decide
  refine ⟨by decide, hc, h.1, ?_, (h.2.2.2.2 "reviews" (by decide)).1⟩
  have := h.2.1
  rw [hc] at this
  exact this

/-! ## C19 -/

theorem heldByOther_after_insert (db : Database) (table : String) (id : Int) (s slug : String)
    (hid : 0 < id) (hfresh : ∀ r ∈ db.content table, r.id ≠ id) :
    heldByOther (db.setTable table (db.content table ++ [⟨id, s⟩])) table id slug ↔
      heldByOther db table 0 slug := by
  unfold heldByOther
  rw [setTable_content, if_pos rfl]
  constructor
  · rintro ⟨r, hr, hslug, hex⟩
    rcases List.mem_append.1 hr with hold | hnew
    · exact ⟨r, hold, hslug, fun hh => absurd hh.1 (by decide)⟩
    · exfalso
      rw [List.mem_singleton] at hnew
      exact hex ⟨hid, by rw [hnew]⟩
  · rintro ⟨r, hr, hslug, _⟩
    exact ⟨r, List.mem_append_left _ hr, hslug, fun hh => hfresh r hr hh.2⟩

theorem uniqueSlug_after_insert (toLower : Char → Char) (db : Database)
    (table artist title : String) (id : Int) (s : String) (fuel fuel' : Nat)
    (hvalid : validTable table = true)
    (hsize : ((db.content table).length : Int) + 3 ≤ maxInt64)
    (hfuel : (db.content table).length < fuel)
    (hfuel' : (db.content table).length + 1 < fuel')
    (hid : 0 < id) (hfresh : ∀ r ∈ db.content table, r.id ≠ id)
    (hs : uniqueSlug fuel toLower db table artist title 0 = some (s, none)) :
    uniqueSlug fuel' toLower (db.setTable table (db.content table ++ [⟨id, s⟩])) table
      artist title id = some (s, none) := by
  obtain ⟨k, hkn, hrun, hfree, hheld⟩ := uniqueSlug_eq_first_free toLower db table artist
    title 0 fuel hvalid (by omega) hfuel
  have hsk : s = slugCandidate (generateSlug toLower artist title) k := by
    rw [hrun] at hs
    exact (congrArg Prod.fst (Option.some.inj hs)).symm
  have h := uniqueSlugLoop_first_free _ (generateSlug toLower artist title)
    (heldByOther (db.setTable table (db.content table ++ [⟨id, s⟩])) table id)
    (probe_eq_heldByOther (db.setTable table (db.content table ++ [⟨id, s⟩])) table id
      hvalid)
    k
    (fun hh => hfree ((heldByOther_after_insert db table id s _ hid hfresh).1 hh))
    (fun j hj => (heldByOther_after_insert db table id s _ hid hfresh).2 (hheld j hj))
    (by omega) fuel' 0 (Nat.zero_le k) (by omega)
  have e0 : slugCandidate (generateSlug toLower artist title) 0
      = generateSlug toLower artist title := rfl
  simp only [Nat.cast_zero, zero_add, e0] at h
  exact h.trans (by rw [← hsk])

/-- C19. Re-slugging on edit is stable. On a valid table, let `s` be what
`uniqueSlug(table, artist, title, 0)` returns and let the row `(id, s)` be
inserted under a fresh `id > 0`, which is what `dbCreateReview` does for every
rating that is a number. Then on the resulting store
`uniqueSlug(table, artist, title, id)` returns `s` again, and `handleUpdate` of
row `id` with an accepted form of the same artist and title leaves the rows of
the table, slugs included, as they are; that holds for the rating NaN as well,
where the update is turned down. `hsize` says that the number of rows, plus 3,
fits Go's `int`. -/
theorem uniqueSlug_stable_on_edit (toLower : Char → Char) (db : Database)
    (table artist title : String) (id : Int) (s : String) (fuel fuel' : Nat)
    (hvalid : validTable table = true)
    (hsize : ((db.content table).length : Int) + 3 ≤ maxInt64)
    (hfuel : (db.content table).length < fuel)
    (hfuel' : (db.content table).length + 1 < fuel')
    (hid : 0 < id) (hfresh : ∀ r ∈ db.content table, r.id ≠ id)
    (hs : uniqueSlug fuel toLower db table artist title 0 = some (s, none)) :
    (∀ rating : Rating, rating ≠ Rating.nan →
        dbCreateReview db table id s rating
          = (db.setTable table (db.content table ++ [⟨id, s⟩]), none)) ∧
      uniqueSlug fuel' toLower (db.setTable table (db.content table ++ [⟨id, s⟩])) table
        artist title id = some (s, none) ∧
      ∀ form : ReviewForm, form.accepted table → form.artistFor table = artist →
        form.title = title →
        (handleUpdate toLower (db.setTable table (db.content table ++ [⟨id, s⟩])) table
          (some id) form).1.content table = db.content table ++ [⟨id, s⟩] := by
  have hstable := uniqueSlug_after_insert toLower db table artist title id s fuel fuel'
    hvalid hsize hfuel hfuel' hid hfresh hs
  refine ⟨?_, hstable, ?_⟩
  · obtain ⟨k, _, hrun, hfree, _⟩ := uniqueSlug_eq_first_free toLower db table artist
      title 0 fuel hvalid (by omega) hfuel
    have hsk : s = slugCandidate (generateSlug toLower artist title) k := by
      rw [hrun] at hs
      exact (congrArg Prod.fst (Option.some.inj hs)).symm
    intro rating hrating
    apply dbCreateReview_eq db table id s rating hvalid hrating hfresh
    intro r hr hslug
    rw [hsk] at hslug
    exact hfree ⟨r, hr, hslug, fun hh => absurd hh.1 (by decide)⟩
  · intro form hform hartist htitle
    have hlen : ((db.setTable table (db.content table ++ [⟨id, s⟩])).content table).length
        = (db.content table).length + 1 := by
      rw [setTable_content, if_pos rfl]
      simp
    obtain ⟨slug, h1, _, h2⟩ := handleUpdate_commits toLower
      (db.setTable table (db.content table ++ [⟨id, s⟩])) table form id hvalid hform
      (by rw [hlen]; push_cast; omega)
      ⟨⟨id, s⟩, by rw [setTable_content, if_pos rfl]; simp, rfl⟩
    have h3 := uniqueSlug_after_insert toLower db table artist title id s fuel
      (((db.setTable table (db.content table ++ [⟨id, s⟩])).content table).length + 1)
      hvalid hsize hfuel (by rw [hlen]; omega) hid hfresh hs
    rw [hartist, htitle, h3] at h1
    have hslug : slug = s := (congrArg Prod.fst (Option.some.inj h1)).symm
    rw [h2, hslug]
    split
    · rw [setTable_content, if_pos rfl]
    simp only [setTable_content, if_true]
    rw [List.map_append]
    have hold : (db.content table).map
        (fun r => if r.id = id then { r with slug := s } else r) = db.content table := by
      conv_rhs => rw [← List.map_id (db.content table)]
      apply List.map_congr_left
      intro r hr
      simp [hfresh r hr]
    rw [hold]
    simp

/-- Witness of C19 on `sampleDatabase`: ("x", "y") is created as `x-y-3` under
id 3, and re-slugging row 3 with the same artist and title gives `x-y-3`
again. -/
theorem uniqueSlug_stable_on_edit_witness :
    uniqueSlug 3 Char.toLower sampleDatabase "albums" "x" "y" 0 = some ("x-y-3", none) ∧
      uniqueSlug 4 Char.toLower
        (sampleDatabase.setTable "albums" (sampleDatabase.content "albums" ++ [⟨3, "x-y-3"⟩]))
        "albums" "x" "y" 3 = some ("x-y-3", none) :=
  have hs : uniqueSlug 3 Char.toLower sampleDatabase "albums" "x" "y" 0
      = some ("x-y-3", none) := by decide
  ⟨hs, (uniqueSlug_stable_on_edit Char.toLower sampleDatabase "albums" "x" "y" 3 "x-y-3" 3 4
    (by decide) (by decide) (by decide) (by decide) (by decide) (by decide) hs).2.1⟩

/-! ## Shape of the slug -/

theorem mem_replaceRuns (p : Char → Bool) (s : List Char) :
    ∀ (b : Bool) (c : Char), c ∈ replaceRuns p b s → c = '-' ∨ (c ∈ s ∧ p c = false) := by
  induction s with
  | nil => intro b c h; simp [replaceRuns] at h
  | cons d ds ih =>
    intro b c h
    cases hd : p d with
    | true =>
      rw [replaceRuns_cons_of_pos p b ds hd] at h
      cases b with
      | true =>
        rcases ih true c h with h1 | ⟨h1, h2⟩
        · exact Or.inl h1
        · exact Or.inr ⟨List.mem_cons_of_mem d h1, h2⟩
      | false =>
        simp only [Bool.false_eq_true, if_false, List.mem_cons] at h
        rcases h with h | h
        · exact Or.inl h
        · rcases ih true c h with h1 | ⟨h1, h2⟩
          · exact Or.inl h1
          · exact Or.inr ⟨List.mem_cons_of_mem d h1, h2⟩
    | false =>
      rw [replaceRuns_cons_of_neg p b ds hd, List.mem_cons] at h
      rcases h with h | h
      · exact Or.inr ⟨by rw [h]; exact List.mem_cons_self d ds, by rw [h]; exact hd⟩
      · rcases ih false c h with h1 | ⟨h1, h2⟩
        · exact Or.inl h1
        · exact Or.inr ⟨List.mem_cons_of_mem d h1, h2⟩

theorem mem_replaceRuns_of_mem (p : Char → Bool) (s : List Char) :
    ∀ (b : Bool) (c : Char), c ∈ s → p c = false → c ∈ replaceRuns p b s := by
  induction s with
  | nil => intro b c h; simp at h
  | cons d ds ih =>
    intro b c h hc
    rw [List.mem_cons] at h
    cases hd : p d with
    | true =>
      have hne : c ≠ d := fun hh => by rw [hh, hd] at hc; cases hc
      have hmem : c ∈ ds := h.resolve_left hne
      rw [replaceRuns_cons_of_pos p b ds hd]
      cases b with
      | true => exact ih true c hmem hc
      | false => exact List.mem_cons_of_mem _ (ih true c hmem hc)
    | false =>
      rw [replaceRuns_cons_of_neg p b ds hd, List.mem_cons]
      rcases h with h | h
      · exact Or.inl h
      · exact Or.inr (ih false c h hc)

theorem chain_replaceRuns_dash (s : List Char) :
    ∀ b : Bool,
      List.Chain' (fun x y => ¬(x = '-' ∧ y = '-')) (replaceRuns (fun c => c == '-') b s) ∧
        (b = true → (replaceRuns (fun c => c == '-') b s).head? ≠ some '-') := by
  induction s with
  | nil => intro b; simp [replaceRuns]
  | cons d ds ih =>
    intro b
    by_cases hd : d = '-'
    · rw [replaceRuns_cons_of_pos _ b ds (by simp [hd])]
      obtain ⟨i1, i2⟩ := ih true
      cases b with
      | true => exact ⟨i1, fun _ => i2 rfl⟩
      | false =>
        refine ⟨?_, fun h => by cases h⟩
        simp only [Bool.false_eq_true, if_false]
        rw [List.chain'_cons']
        refine ⟨?_, i1⟩
        intro y hy hxy
        exact i2 rfl (by rw [Option.mem_def] at hy; rw [hy, hxy.2])
    · rw [replaceRuns_cons_of_neg _ b ds (by simp [hd])]
      obtain ⟨i1, _⟩ := ih false
      refine ⟨?_, fun _ => by simp [hd]⟩
      rw [List.chain'_cons']
      exact ⟨fun y _ hxy => hd hxy.1, i1⟩

theorem trimDashes_eq (s : List Char) :
    trimDashes s = (s.dropWhile (· == '-')).rdropWhile (· == '-') := rfl

theorem trimDashes_within (s : List Char) : trimDashes s <:+: s := by
  rw [trimDashes_eq]
  have hpre : (s.dropWhile (· == '-')).rdropWhile (· == '-') <+: s.dropWhile (· == '-') :=
    List.rdropWhile_prefix _ _
  exact hpre.isInfix.trans (List.dropWhile_suffix _).isInfix

theorem trimDashes_eq_nil_iff (s : List Char) : trimDashes s = [] ↔ ∀ c ∈ s, c = '-' := by
  rw [trimDashes_eq, List.rdropWhile_eq_nil_iff]
  constructor
  · intro h
    have hnil : s.dropWhile (· == '-') = [] := by
      by_contra hne
      have h1 := List.head_dropWhile_not (· == '-') s hne
      have h2 := h _ (List.head_mem hne)
      simp only [h2] at h1
      cases h1
    rw [List.dropWhile_eq_nil_iff] at hnil
    intro c hc
    simpa using hnil c hc
  · intro h x hx
    have := h x ((List.dropWhile_suffix _).subset hx)
    simp [this]

theorem trimDashes_head (s : List Char) : (trimDashes s).head? ≠ some '-' := by
  intro h
  have hne : trimDashes s ≠ [] := by
    intro hh; rw [hh] at h; cases h
  have hpre : trimDashes s <+: s.dropWhile (· == '-') := by
    rw [trimDashes_eq]; exact List.rdropWhile_prefix _ _
  have hne' : s.dropWhile (· == '-') ≠ [] := hpre.ne_nil hne
  have h1 := List.head_dropWhile_not (· == '-') s hne'
  rw [← hpre.head hne] at h1
  rw [List.head?_eq_head hne] at h
  rw [Option.some.inj h] at h1
  simp at h1

theorem trimDashes_getLast (s : List Char) : (trimDashes s).getLast? ≠ some '-' := by
  intro h
  have hne : trimDashes s ≠ [] := by
    intro hh; rw [hh] at h; cases h
  rw [trimDashes_eq] at h hne
  have h1 := List.rdropWhile_last_not (· == '-') (s.dropWhile (· == '-')) hne
  rw [List.getLast?_eq_getLast _ hne] at h
  rw [Option.some.inj h] at h1
  simp at h1

theorem no_double_dash_of_chain (l : List Char)
    (h : List.Chain' (fun x y => ¬(x = '-' ∧ y = '-')) l) : ¬(['-', '-'] <:+: l) := by
  intro hin
  have := h.infix hin
  simp at this

theorem generateSlug_eq_body (toLower : Char → Char) (artist title : String) :
    generateSlug toLower artist title
      = if slugBody toLower artist title = [] then "untitled"
        else String.mk (slugBody toLower artist title) := rfl

theorem isSlugRune_of_mem_slugBody (toLower : Char → Char) (artist title : String) :
    ∀ c ∈ slugBody toLower artist title, isSlugRune c = true := by
  intro c hc
  have h1 : c ∈ collapseDashes (replaceNonAlnum
      ((artist.data ++ '-' :: title.data).map toLower)) :=
    (trimDashes_within _).subset hc
  rw [(collapseDashes_eq_replaceRuns _).1] at h1
  rcases mem_replaceRuns _ _ _ _ h1 with h2 | ⟨h2, _⟩
  · rw [h2]; decide
  · rw [(replaceNonAlnum_eq_replaceRuns _).1] at h2
    rcases mem_replaceRuns _ _ _ _ h2 with h3 | ⟨_, h3⟩
    · rw [h3]; decide
    · simpa using h3

theorem isSlugRune_of_isAlnumRune {c : Char} (h : isAlnumRune c = true) :
    isSlugRune c = true ∧ c ≠ '-' := by
  constructor
  · unfold isAlnumRune at h
    unfold isSlugRune
    rw [h]
    rfl
  · intro hc
    rw [hc] at h
    revert h
    decide

theorem eq_dash_of_isSlugRune {c : Char} (h : isSlugRune c = true)
    (hn : isAlnumRune c = false) : c = '-' := by
  unfold isSlugRune at h
  unfold isAlnumRune at hn
  rw [hn] at h
  simpa using h

theorem slugBody_eq_nil_iff (toLower : Char → Char) (artist title : String)
    (hdash : toLower '-' = '-') :
    slugBody toLower artist title = [] ↔
      ∀ c ∈ artist.data ++ title.data, isAlnumRune (toLower c) = false := by
  unfold slugBody
  rw [trimDashes_eq_nil_iff, (collapseDashes_eq_replaceRuns _).1,
    (replaceNonAlnum_eq_replaceRuns _).1]
  constructor
  · intro h c hc
    by_contra hal
    have hal' : isAlnumRune (toLower c) = true := by simpa using hal
    obtain ⟨hslug, hne⟩ := isSlugRune_of_isAlnumRune hal'
    have hmem : toLower c ∈ (artist.data ++ '-' :: title.data).map toLower := by
      apply List.mem_map_of_mem
      rcases List.mem_append.1 hc with h1 | h1
      · exact List.mem_append_left _ h1
      · exact List.mem_append_right _ (List.mem_cons_of_mem _ h1)
    have h1 := mem_replaceRuns_of_mem (fun c => !isSlugRune c) _ false _ hmem (by simp [hslug])
    have h2 := mem_replaceRuns_of_mem (fun c => c == '-') _ false _ h1 (by simp [hne])
    exact hne (h _ h2)
  · intro h c hc
    rcases mem_replaceRuns _ _ _ _ hc with h1 | ⟨h1, _⟩
    · exact h1
    · rcases mem_replaceRuns _ _ _ _ h1 with h2 | ⟨h2, h3⟩
      · exact h2
      · have hslug : isSlugRune c = true := by simpa using h3
        apply eq_dash_of_isSlugRune hslug
        obtain ⟨d, hd, rfl⟩ := List.mem_map.1 h2
        rcases List.mem_append.1 hd with h4 | h4
        · exact h d (List.mem_append_left _ h4)
        · rcases List.mem_cons.1 h4 with h5 | h5
          · rw [h5, hdash]
            decide
          · exact h d (List.mem_append_right _ h5)

/-! ## C18 -/

/-- Counterexample to C18 as stated. The slug is `untitled` for the artist
`Untitled` and an empty title, although these inputs contain characters that
lowercase to `a`-`z` (shown with ASCII lowering, which is what `unicode.ToLower`
does on these inputs): the slug `untitled` does not tell that the inputs had no
such character. -/
theorem generateSlug_untitled_from_letters :
    generateSlug Char.toLower "Untitled" "" = "untitled" ∧
      ∃ c ∈ "Untitled".data ++ "".data, isAlnumRune (Char.toLower c) = true := by
  refine ⟨by decide, 'U', by decide, by decide⟩

/-- C18, as amended. For every pair of input strings, whatever `unicode.ToLower`
does, `generateSlug` returns a non-empty string made only of the characters
`a`-`z`, `0`-`9` and `-`, that neither begins nor ends with `-` and has no two
hyphens in a row. It is the placeholder `untitled` when the string left after
trimming (`slugBody`) is empty, and that string itself otherwise; and, provided
lowercasing leaves the hyphen alone, the string left after trimming is empty
exactly when the inputs contain no character that lowercases to `a`-`z` or
`0`-`9`, in which case the slug is `untitled`. -/
theorem generateSlug_url_safe (toLower : Char → Char) (artist title : String) :
    (generateSlug toLower artist title).data ≠ [] ∧
      (∀ c ∈ (generateSlug toLower artist title).data, isSlugRune c = true) ∧
      (generateSlug toLower artist title).data.head? ≠ some '-' ∧
      (generateSlug toLower artist title).data.getLast? ≠ some '-' ∧
      ¬(['-', '-'] <:+: (generateSlug toLower artist title).data) ∧
      generateSlug toLower artist title
        = (if slugBody toLower artist title = [] then "untitled"
          else String.mk (slugBody toLower artist title)) ∧
      (toLower '-' = '-' →
        (slugBody toLower artist title = [] ↔
          ∀ c ∈ artist.data ++ title.data, isAlnumRune (toLower c) = false) ∧
        ((∀ c ∈ artist.data ++ title.data, isAlnumRune (toLower c) = false) →
          generateSlug toLower artist title = "untitled")) := by
  have hbody := generateSlug_eq_body toLower artist title
  have hlast : ∀ h : toLower '-' = '-',
      (slugBody toLower artist title = [] ↔
        ∀ c ∈ artist.data ++ title.data, isAlnumRune (toLower c) = false) ∧
      ((∀ c ∈ artist.data ++ title.data, isAlnumRune (toLower c) = false) →
        generateSlug toLower artist title = "untitled") := by
    intro hdash
    have hiff := slugBody_eq_nil_iff toLower artist title hdash
    refine ⟨hiff, ?_⟩
    intro hno
    rw [hbody, if_pos (hiff.2 hno)]
  have hchain : List.Chain' (fun x y => ¬(x = '-' ∧ y = '-'))
      (slugBody toLower artist title) := by
    have hch := (chain_replaceRuns_dash (replaceNonAlnum
      ((artist.data ++ '-' :: title.data).map toLower)) false).1
    rw [← (collapseDashes_eq_replaceRuns _).1] at hch
    exact hch.infix (trimDashes_within _)
  by_cases hnil : slugBody toLower artist title = []
  · have hr : generateSlug toLower artist title = "untitled" := by
      rw [hbody, if_pos hnil]
    have hdata : (generateSlug toLower artist title).data = "untitled".data := by rw [hr]
    refine ⟨?_, ?_, ?_, ?_, ?_, hbody, hlast⟩
    · rw [hdata]; decide
    · rw [hdata]; decide
    · rw [hdata]; decide
    · rw [hdata]; decide
    · rw [hdata]; decide
  · have hr : generateSlug toLower artist title
        = String.mk (slugBody toLower artist title) := by
      rw [hbody, if_neg hnil]
    have hdata : (generateSlug toLower artist title).data
        = slugBody toLower artist title := by rw [hr]
    refine ⟨?_, ?_, ?_, ?_, ?_, hbody, hlast⟩
    · rw [hdata]; exact hnil
    · rw [hdata]; exact isSlugRune_of_mem_slugBody toLower artist title
    · rw [hdata]; exact trimDashes_head _
    · rw [hdata]; exact trimDashes_getLast _
    · rw [hdata]; exact no_double_dash_of_chain _ hchain

/-- Witness of C18: an input of punctuation and non-ASCII letters only gives
`untitled`; `AC/DC` and `Back in Black!` give `ac-dc-back-in-black`. -/
theorem generateSlug_url_safe_witness :
    Char.toLower '-' = '-' ∧
      generateSlug Char.toLower "¿?" "—é—" = "untitled" ∧
      generateSlug Char.toLower "AC/DC" "Back in Black!" = "ac-dc-back-in-black" ∧
      ¬(['-', '-'] <:+: (generateSlug Char.toLower "AC/DC" "Back in Black!").data) :=
  ⟨rfl,
    ((generateSlug_url_safe Char.toLower "¿?" "—é—").2.2.2.2.2.2 rfl).2 (by decide),
    by decide,
    (generateSlug_url_safe Char.toLower "AC/DC" "Back in Black!").2.2.2.2.1⟩

end Ditchfork
